import Mathlib

/-!
# Verification of the McBopomofoWeb composition engine

A shallow embedding of the McBopomofoWeb input-method core, translated from
the TypeScript sources (`KeyHandler`, `WebLanguageModel`, `InputState`), with
theorems about the behaviour that the natural-language specification
describes.  Components that the repository consumes but does not contain
(the Gramambular grid builder and walker, the Mandarin reading buffer,
`Key.ts`, the user-override model) are modelled from the specification and
kept abstract wherever the sources do not pin them down.

Conventions: JavaScript strings are embedded as Lean `String`s measured in
codepoints; JavaScript string algorithms (`replace`, `split`) are embedded
as structurally recursive functions over `List Char`; mutation is embedded
as explicit state passing; the `stateCallback` / `errorCallback` channels
are embedded as an accumulated list of emitted states and an error count.
-/

namespace McBopomofo

/-! ## JavaScript string primitives over `List Char`

`String.replace(/pat/g, rep)` and `String.split(sep)` from JavaScript,
written with an explicit fuel argument (the length of the list) so that the
definitions are structurally recursive and evaluate inside the kernel. -/

/-- JS `String.replace(/pat/g, rep)` (global, leftmost, non-overlapping),
with fuel.  When the fuel is at least the length of the input the fuel never
runs out. -/
def jsReplaceAllAux (pat rep : List Char) : Nat → List Char → List Char
  | _, [] => []
  | 0, l => l
  | Nat.succ fuel, c :: rest =>
    if pat ≠ [] ∧ pat.isPrefixOf (c :: rest) then
      rep ++ jsReplaceAllAux pat rep fuel (List.drop pat.length (c :: rest))
    else
      c :: jsReplaceAllAux pat rep fuel rest

/-- JS `String.replace(/pat/g, rep)` on `List Char`. -/
def jsReplaceAll (pat rep l : List Char) : List Char :=
  jsReplaceAllAux pat rep l.length l

/-- JS `String.split(sep)` on `List Char`, with fuel; `acc` is the current
(reversed) segment. -/
def jsSplitAux (sep : List Char) : Nat → List Char → List Char → List (List Char)
  | _, [], acc => [acc.reverse]
  | 0, l, acc => [acc.reverse ++ l]
  | Nat.succ fuel, c :: rest, acc =>
    if sep ≠ [] ∧ sep.isPrefixOf (c :: rest) then
      acc.reverse :: jsSplitAux sep fuel (List.drop sep.length (c :: rest)) []
    else
      jsSplitAux sep fuel rest (c :: acc)

/-- JS `String.split(sep)` on `List Char`. -/
def jsSplit (sep l : List Char) : List (List Char) :=
  jsSplitAux sep l.length l []

/-- JS `Array.prototype.slice(a, b)` on lists. -/
def jsSlice (l : List α) (a b : Nat) : List α :=
  (l.take b).drop a

/-! ## `Gramambular/KeyValuePair.ts` -/

/-- `KeyValuePair` from `src/Gramambular/KeyValuePair.ts`. -/
structure KeyValuePair where
  key : String
  value : String
deriving DecidableEq, Repr

/-- A unigram: a key-value pair together with a log-probability score
(`Gramambular`'s `Unigram`; the constructor's score argument defaults
to `0`). -/
structure Unigram where
  keyValue : KeyValuePair
  score : ℚ
deriving DecidableEq, Repr

/-! ## `WebLanguageModel.ts` -/

/-- An association-list embedding of a JS `Map` / plain object: lookup of
the first binding of a key. -/
def mapGet (m : List (String × α)) (k : String) : Option α :=
  match m.find? (fun p => p.1 == k) with
  | some p => some p.2
  | none => none

/-- `Map.set`: replace the binding of `k` if present (keeping its position),
otherwise append a new binding. -/
def mapSet (m : List (String × α)) (k : String) (v : α) : List (String × α) :=
  match m with
  | [] => [(k, v)]
  | (k', v') :: rest =>
    if k' == k then (k, v) :: rest else (k', v') :: mapSet rest k v

/-- `UserPhrases` from `WebLanguageModel.ts`: the user-phrase store
(`map_ : Map<string, string[]>`). -/
structure UserPhrases where
  map_ : List (String × List String)
deriving DecidableEq, Repr

/-- `UserPhrases.addUserPhrase`.  Returns the updated store together with
whether `onPhraseChange` was invoked.  A phrase already present for the key
is not stored again (and the callback is not invoked); otherwise the phrase
is pushed at the end of the key's list. -/
def UserPhrases.addUserPhrase (m : UserPhrases) (key phrase : String) :
    UserPhrases × Bool :=
  match mapGet m.map_ key with
  | some list =>
    if list.contains phrase then (m, false)
    else (⟨mapSet m.map_ key (list ++ [phrase])⟩, true)
  | none => (⟨mapSet m.map_ key [phrase]⟩, true)

/-- `UserPhrases.unigramsForKey`: each stored phrase for the key becomes a
unigram with score `0`, in stored order. -/
def UserPhrases.unigramsForKey (m : UserPhrases) (key : String) : List Unigram :=
  match mapGet m.map_ key with
  | some list => list.map (fun item => ⟨⟨key, item⟩, 0⟩)
  | none => []

/-- `UserPhrases.hasUnigramsForKey`. -/
def UserPhrases.hasUnigramsForKey (m : UserPhrases) (key : String) : Bool :=
  match mapGet m.map_ key with
  | some list => list.length != 0
  | none => false

/-- `WebLanguageModel` from `WebLanguageModel.ts`.  The static dictionary
`map_` maps an absolute-order key to a `"value score value score …"` string;
it is embedded with that string already cut into `(value, score)` pairs.
`absoluteOrderString` stands for
`BopomofoSyllable.FromComposedString(s).absoluteOrderString` from the
`Mandarin` module, which is outside this repository's core sources; it is
kept as an opaque function field. -/
structure WebLanguageModel where
  map_ : List (String × List (String × ℚ))
  userPhrases_ : UserPhrases
  converter_ : Option (String → Option String)
  addUserPhraseConverter : Option (String → Option String)
  absoluteOrderString : String → String

/-- `WebLanguageModel.maybeAbsoluteOrderKey`: protect the literal `"_-"`
by substituting `"_______"`, split on `"-"`, keep segments that start with
`"_"` verbatim and translate the rest to absolute order, join, restore. -/
def maybeAbsoluteOrderKey (absOrder : String → String) (key : String) : String :=
  let r := jsReplaceAll "_-".data "_______".data key.data
  let elements := (jsSplit "-".data r).map
    (fun s => if "_".data.isPrefixOf s then s else (absOrder ⟨s⟩).data)
  ⟨jsReplaceAll "_______".data "_-".data elements.flatten⟩

/-- `WebLanguageModel.addUserPhrase`: apply the input converter (when set)
to the phrase, then delegate to `UserPhrases.addUserPhrase`. -/
def WebLanguageModel.addUserPhrase (m : WebLanguageModel) (key phrase : String) :
    WebLanguageModel × Bool :=
  let phrase :=
    match m.addUserPhraseConverter with
    | some c => (c phrase).getD phrase
    | none => phrase
  let (up, notified) := m.userPhrases_.addUserPhrase key phrase
  ({ m with userPhrases_ := up }, notified)

/-- The output converter applied to a value:
`this.converter_(value) ?? value` when a converter is set. -/
def WebLanguageModel.conv (m : WebLanguageModel) (value : String) : String :=
  match m.converter_ with
  | some c => (c value).getD value
  | none => value

/-- The loop body of the user-phrase pass of
`WebLanguageModel.unigramsForKey`: convert the value, keep the unigram if
its value is not yet in `usedValues`, and record the value. -/
def userLoopStep (m : WebLanguageModel) (key : String)
    (acc : List Unigram × List String) (phrase : Unigram) :
    List Unigram × List String :=
  let phrase :=
    match m.converter_ with
    | some _ => ⟨⟨key, m.conv phrase.keyValue.value⟩, phrase.score⟩
    | none => phrase
  (if acc.2.contains phrase.keyValue.value then acc.1 else acc.1 ++ [phrase],
   acc.2 ++ [phrase.keyValue.value])

/-- The loop body of the static-dictionary pass of
`WebLanguageModel.unigramsForKey`. -/
def staticLoopStep (m : WebLanguageModel) (key : String)
    (acc : List Unigram × List String) (vs : String × ℚ) :
    List Unigram × List String :=
  let value := m.conv vs.1
  (if acc.2.contains value then acc.1 else acc.1 ++ [⟨⟨key, value⟩, vs.2⟩],
   acc.2 ++ [value])

/-- `WebLanguageModel.unigramsForKey`: the `" "` key short-circuits to a
single identity unigram; otherwise the user-phrase pass runs first, then the
static-dictionary pass (looked up under the absolute-order key), each pass
dropping values already seen. -/
def WebLanguageModel.unigramsForKey (m : WebLanguageModel) (key : String) :
    List Unigram :=
  if key = " " then [⟨⟨" ", " "⟩, 0⟩]
  else
    let acc := (m.userPhrases_.unigramsForKey key).foldl (userLoopStep m key) ([], [])
    let actualKey := maybeAbsoluteOrderKey m.absoluteOrderString key
    match mapGet m.map_ actualKey with
    | some pairs => (pairs.foldl (staticLoopStep m key) acc).1
    | none => acc.1

/-- `WebLanguageModel.hasUnigramsForKey`. -/
def WebLanguageModel.hasUnigramsForKey (m : WebLanguageModel) (key : String) :
    Bool :=
  if key = " " then true
  else if m.userPhrases_.hasUnigramsForKey key then true
  else (mapGet m.map_ (maybeAbsoluteOrderKey m.absoluteOrderString key)).isSome

/-! ### The specification's description of `unigrams_for`

Per the spec (§4.2): user-phrase entries (score 0) before static-dictionary
entries, deduplicated by value with user entries winning, converter applied
to every returned value, and a single identity unigram for key `" "`. -/

/-- Keep-first deduplication of unigrams by value, relative to a list of
already-seen values. -/
def dedupByValue (used : List String) : List Unigram → List Unigram
  | [] => []
  | u :: rest =>
    if used.contains u.keyValue.value then dedupByValue used rest
    else u :: dedupByValue (used ++ [u.keyValue.value]) rest

/-- The merged unigram list exactly as the specification words it:
converted user entries (score 0) first, then converted static entries,
deduplicated by value keeping the first (user) occurrence; a lone identity
unigram for `" "`. -/
def specMergedUnigrams (m : WebLanguageModel) (key : String) : List Unigram :=
  if key = " " then [⟨⟨" ", " "⟩, 0⟩]
  else
    let userPart : List Unigram :=
      (m.userPhrases_.unigramsForKey key).map
        (fun u => ⟨⟨key, m.conv u.keyValue.value⟩, u.score⟩)
    let staticPart : List Unigram :=
      match mapGet m.map_ (maybeAbsoluteOrderKey m.absoluteOrderString key) with
      | some pairs => pairs.map (fun vs => ⟨⟨key, m.conv vs.1⟩, vs.2⟩)
      | none => []
    dedupByValue [] (userPart ++ staticPart)

/-! ## The Gramambular grid model

`BlockReadingBuilder`, `Grid`, `Node`, `NodeAnchor` and `Walker` live in the
`Gramambular` module, which is outside this repository's core sources; the
definitions below are modelled from the specification (§3, §4.3, §4.4).
Node-internal selection state and the walker's search are kept abstract. -/

/-- Modelled from the spec: a grid node (§3) — a span's candidate list, the
currently selected candidate, its score and the best unigram score.
`scoreForCandidate` is the node's score for a named candidate. -/
structure Node where
  key : String
  currentKeyValue : KeyValuePair
  candidates : List KeyValuePair
  score : ℚ
  highestUnigramScore : ℚ
  scoreForCandidate : String → ℚ

/-- Modelled from the spec: a node anchor (§3) — a node (or none, matching
Gramambular's nullable field, with `NodeAnchor()` defaulting to no node and
spanning length `0`) at a spanning length. -/
structure NodeAnchor where
  node : Option Node
  spanningLength : Nat

/-- Modelled from the spec: the reading part of `BlockReadingBuilder`
(§4.3) — an ordered sequence of reading keys with a cursor in `[0, W]`.
The grid width `W` equals the number of readings (§3). -/
structure BuilderState where
  readings : List String
  cursor : Nat

/-- `builder.length` / `builder.grid.width`: the number of readings. -/
def BuilderState.length (b : BuilderState) : Nat := b.readings.length

/-- Modelled from the spec: `insert_reading_at_cursor` — insert the reading
at the cursor position and advance the cursor. -/
def BuilderState.insertReadingAtCursor (b : BuilderState) (r : String) :
    BuilderState :=
  ⟨b.readings.insertIdx b.cursor r, b.cursor + 1⟩

/-- Modelled from the spec: `delete_reading_before_cursor`. -/
def BuilderState.deleteReadingBeforeCursor (b : BuilderState) : BuilderState :=
  ⟨b.readings.eraseIdx (b.cursor - 1), b.cursor - 1⟩

/-- Modelled from the spec: `delete_reading_after_cursor`. -/
def BuilderState.deleteReadingAfterCursor (b : BuilderState) : BuilderState :=
  ⟨b.readings.eraseIdx b.cursor, b.cursor⟩

/-- Modelled from the spec: `remove_head_readings(n)` — drop `n` readings
from the head of the grid the cursor moving along (clamped at `0`). -/
def BuilderState.removeHeadReadings (b : BuilderState) (n : Nat) : BuilderState :=
  ⟨b.readings.drop n, b.cursor - n⟩

/-! ## Constants of `KeyHandler.ts` -/

def kPunctuationListKey : String := "`"
def kPunctuationListUnigramKey : String := "_punctuation_list"
def kPunctuationKeyPre : String := "_punctuation_"
def kLetterPre : String := "_letter_"
def kMinValidMarkingReadingCount : Nat := 2
def kMaxValidMarkingReadingCount : Nat := 6
def kComposingBufferSize : Nat := 20
def kMaxComposingBufferSize : Int := 100
def kMinComposingBufferSize : Int := 4
def kMaxComposingBufferNeedsToWalkSize : Nat := 10
def kNoOverrideThreshold : ℚ := -8
def kEpsilon : ℚ := 1 / 1000000
def kJoinSeparator : String := "-"

/-- Modelled from the spec: Gramambular's `kSelectedCandidateScore` — the
sentinel score marking a manually selected candidate (§4.6.1 calls it "the
special 'selected candidate score' sentinel"; any score of an unselected
node lies below it). -/
def kSelectedCandidateScore : ℚ := 99

/-! ## `Key.ts` and `InputState.ts` -/

/-- The key-name enumeration (spec §6). -/
inductive KeyName where
  | ASCII | UNKNOWN | LEFT | RIGHT | UP | DOWN | HOME | END
  | BACKSPACE | DELETE | RETURN | ESC | SPACE | TAB | PAGE_UP | PAGE_DOWN
deriving DecidableEq, Repr

/-- A key event (spec §6): `(ascii_char, key_name, shift, ctrl)`. -/
structure Key where
  ascii : String
  name : KeyName
  shiftPressed : Bool
  ctrlPressed : Bool
deriving DecidableEq, Repr

/-- Modelled from the spec: `Key.isCursorKeys` — the keys of transition
rule 6 ("Arrow keys / Home / End move the grid cursor"; `UP`/`DOWN` are the
candidate-window keys of rule 3, not grid-cursor keys). -/
def Key.isCursorKeys (k : Key) : Bool :=
  k.name = KeyName.LEFT ∨ k.name = KeyName.RIGHT ∨
  k.name = KeyName.HOME ∨ k.name = KeyName.END

/-- Modelled from the spec: `Key.isDeleteKeys` (rule 7). -/
def Key.isDeleteKeys (k : Key) : Bool :=
  k.name = KeyName.BACKSPACE ∨ k.name = KeyName.DELETE

/-- The state hierarchy of `InputState.ts` as a tagged union.  `notEmpty`
is the instantiable `NotEmpty` base class; `inputting`, `choosingCandidate`
and `marking` extend it, so `instanceof NotEmpty` holds for all four. -/
inductive InputState where
  | empty
  | emptyIgnoringPrevious
  | committing (text : String)
  | notEmpty (composingBuffer : String) (cursorIndex : Nat) (tooltip : String)
  | inputting (composingBuffer : String) (cursorIndex : Nat) (tooltip : String)
      (evictedText : String)
  | choosingCandidate (composingBuffer : String) (cursorIndex : Nat)
      (candidates : List String)
  | marking (composingBuffer : String) (cursorIndex : Nat) (tooltip : String)
      (markStartGridCursorIndex : Nat) (head : String) (markedText : String)
      (tail : String) (reading : String) (acceptable : Bool)
deriving DecidableEq, Repr

/-- `state instanceof NotEmpty`. -/
def InputState.isNotEmpty : InputState → Bool
  | .notEmpty _ _ _ => true
  | .inputting _ _ _ _ => true
  | .choosingCandidate _ _ _ => true
  | .marking _ _ _ _ _ _ _ _ _ => true
  | _ => false

/-- `state instanceof Inputting`. -/
def InputState.isInputting : InputState → Bool
  | .inputting _ _ _ _ => true
  | _ => false

/-- `state instanceof Marking`. -/
def InputState.isMarking : InputState → Bool
  | .marking _ _ _ _ _ _ _ _ _ => true
  | _ => false

/-- The `composingBuffer` field of a `NotEmpty` state (`""` otherwise). -/
def InputState.notEmptyBuf : InputState → String
  | .notEmpty b _ _ => b
  | .inputting b _ _ _ => b
  | .choosingCandidate b _ _ => b
  | .marking b _ _ _ _ _ _ _ _ => b
  | _ => ""

/-- The `cursorIndex` field of a `NotEmpty` state (`0` otherwise). -/
def InputState.notEmptyCursor : InputState → Nat
  | .notEmpty _ c _ => c
  | .inputting _ c _ _ => c
  | .choosingCandidate _ c _ => c
  | .marking _ c _ _ _ _ _ _ _ => c
  | _ => 0

/-- The `candidates` of a `ChoosingCandidate` state. -/
def InputState.candidatesOf : InputState → List String
  | .choosingCandidate _ _ cs => cs
  | _ => []

/-- The `head` of a `Marking` state. -/
def InputState.markingHead : InputState → String
  | .marking _ _ _ _ h _ _ _ _ => h
  | _ => ""

/-- The `markedText` of a `Marking` state. -/
def InputState.markingMarkedText : InputState → String
  | .marking _ _ _ _ _ m _ _ _ => m
  | _ => ""

/-- The `tail` of a `Marking` state. -/
def InputState.markingTail : InputState → String
  | .marking _ _ _ _ _ _ t _ _ => t
  | _ => ""

/-- The `reading` of a `Marking` state. -/
def InputState.markingReading : InputState → String
  | .marking _ _ _ _ _ _ _ r _ => r
  | _ => ""

/-- The `acceptable` flag of a `Marking` state. -/
def InputState.markingAcceptable : InputState → Bool
  | .marking _ _ _ _ _ _ _ _ a => a
  | _ => false

/-- The `markStartGridCursorIndex` of a `Marking` state. -/
def InputState.markingMarkStart : InputState → Nat
  | .marking _ _ _ ms _ _ _ _ _ => ms
  | _ => 0

/-- The `evictedText` of an `Inputting` state. -/
def InputState.evictedTextOf : InputState → String
  | .inputting _ _ _ e => e
  | _ => ""

/-- Set the `evictedText` field of an `Inputting` state
(`inputtingState.evictedText = evictedText` in the source). -/
def InputState.withEvicted (e : String) : InputState → InputState
  | .inputting b c t _ => .inputting b c t e
  | s => s

/-! ## The key handler's collaborators

`KeyHandler` is parametrised by an environment of collaborators that live
outside this repository's core sources: the Bopomofo reading buffer
(`Mandarin` module), the grid's node-selection internals and the walker
(`Gramambular`), the user-override model, the language model, and the
localized strings.  Their interfaces are modelled from the specification
(§4.1, §4.3–§4.5, §6); `ρ` is the reading buffer's state, `γ` the grid's
node-selection state, `υ` the user-override model's state. -/

structure Env (ρ γ υ : Type) where
  /-- `reading_.isValidKey(ch)` (spec §4.1). -/
  isValidKey : ρ → String → Bool
  /-- `reading_.combineKey(ch)` (spec §4.1). -/
  combineKey : ρ → String → ρ
  /-- `reading_.hasToneMarker` (spec §4.1). -/
  hasToneMarker : ρ → Bool
  /-- `reading_.hasToneMarkerOnly` (spec §4.1). -/
  hasToneMarkerOnly : ρ → Bool
  /-- `reading_.isEmpty` (spec §4.1). -/
  readingIsEmpty : ρ → Bool
  /-- `reading_.syllable.composedString` (spec §4.1). -/
  syllableComposedString : ρ → String
  /-- `reading_.composedString` (spec §4.1). -/
  readingComposedString : ρ → String
  /-- `reading_.clear()` (spec §4.1). -/
  clearReading : ρ
  /-- `reading_.backspace()` (spec §4.1). -/
  backspaceReading : ρ → ρ
  /-- `GetKeyboardLayoutName(reading_.keyboardLayout)`. -/
  layoutName : String
  /-- `languageModel_.hasUnigramsForKey(key)` (spec §6). -/
  hasUnigramsForKey : String → Bool
  /-- `languageModel_.unigramsForKey(key)` (spec §6). -/
  unigramsForKey : String → List Unigram
  /-- `languageModel_ instanceof WebLanguageModel`. -/
  isWebLanguageModel : Bool
  /-- The cleared grid's node-selection state (`builder_.clear()`). -/
  emptyGrid : γ
  /-- Modelled from the spec: the walker over the current grid (§4.4). -/
  walk : BuilderState → γ → List NodeAnchor
  /-- Modelled from the spec: `grid.nodesCrossingOrEndingAt(i)` (§4.3). -/
  nodesCrossingOrEndingAt : BuilderState → γ → Nat → List NodeAnchor
  /-- Modelled from the spec: `grid.fixNodeSelectedCandidate(i, value)`,
  returning the mutated grid and the selected node's anchor (§4.3). -/
  fixNodeSelectedCandidate : BuilderState → γ → Nat → String → γ × NodeAnchor
  /-- Modelled from the spec:
  `grid.overrideNodeScoreForSelectedCandidate(i, value, score)` (§4.3). -/
  overrideNodeScore : BuilderState → γ → Nat → String → ℚ → γ
  /-- Modelled from the spec: `userOverrideModel_.suggest` at the current
  wall-clock time (§4.5). -/
  suggest : List NodeAnchor → Nat → Option String
  /-- Modelled from the spec: `userOverrideModel_.observe` at the current
  wall-clock time (§4.5). -/
  observe : υ → List NodeAnchor → Nat → String → υ
  /-- `localizedStrings_.cursorIsBetweenSyllables(prev, next)`. -/
  cursorIsBetweenSyllables : String → String → String
  /-- `localizedStrings_.syllablesRequired(n)`. -/
  syllablesRequired : Nat → String
  /-- `localizedStrings_.syllableMaximum(n)`. -/
  syllableMaximum : Nat → String
  /-- `localizedStrings_.phraseAlreadyExists()`. -/
  phraseAlreadyExists : String
  /-- `localizedStrings_.pressEnterToAddThePhrase()`. -/
  pressEnterToAddThePhrase : String
  /-- `localizedStrings_.markedWithSyllablesAndStatus(m, r, s)`. -/
  markedWithSyllablesAndStatus : String → String → String → String

/-- The mutable per-instance state of `KeyHandler`: the reading buffer, the
builder (readings and cursor), the grid's node-selection state, the last
walked path, the user-override model, and the settable configuration. -/
structure KHState (ρ γ υ : Type) where
  reading : ρ
  builder : BuilderState
  gridAux : γ
  walkedNodes : List NodeAnchor
  uom : υ
  composingBufferSize : Nat
  traditionalMode : Bool
  selectPhraseAfterCursorAsCandidate : Bool
  moveCursorAfterSelection : Bool
  putLowercaseLettersToComposingBuffer : Bool
  escKeyClearsEntireComposingBuffer : Bool

/-- The observable outcome of one `handle` call: the new handler state, the
states passed to `stateCallback` in order, the number of `errorCallback`
invocations, the `(key, phrase)` pairs passed to
`languageModel_.addUserPhrase`, and the returned boolean. -/
structure HandleResult (ρ γ υ : Type) where
  st : KHState ρ γ υ
  emitted : List InputState
  errors : Nat
  addedPhrases : List (String × String)
  consumed : Bool

/-- `KeyHandler.composingBufferSize`'s setter: clamp to
`[kMinComposingBufferSize, kMaxComposingBufferSize]`. -/
def setComposingBufferSize (value : Int) : Int :=
  let value := if value > kMaxComposingBufferSize then kMaxComposingBufferSize else value
  let value := if value < kMinComposingBufferSize then kMinComposingBufferSize else value
  value

/-- `FindHighestScore(nodeAnchors, epsilon)` from `KeyHandler.ts`. -/
def FindHighestScore (nodeAnchors : List NodeAnchor) (epsilon : ℚ) : ℚ :=
  (nodeAnchors.foldl
    (fun highestScore anchor =>
      match anchor.node with
      | none => highestScore
      | some node =>
        if node.highestUnigramScore > highestScore then node.highestUnigramScore
        else highestScore)
    0) + epsilon

/-- `KeyHandler.reset()`. -/
def KHState.reset (env : Env ρ γ υ) (st : KHState ρ γ υ) : KHState ρ γ υ :=
  { st with
    reading := env.clearReading
    builder := ⟨[], 0⟩
    gridAux := env.emptyGrid
    walkedNodes := [] }

/-- `KeyHandler.walk()`: re-run the walker over the grid and store the
walked path. -/
def KHState.walkNow (env : Env ρ γ υ) (st : KHState ρ γ υ) : KHState ρ γ υ :=
  { st with walkedNodes := env.walk st.builder st.gridAux }

/-- `KeyHandler.actualCandidateCursorIndex` (§4.6.2). -/
def KHState.actualCandidateCursorIndex (st : KHState ρ γ υ) : Nat :=
  let cursorIndex := st.builder.cursor
  if st.selectPhraseAfterCursorAsCandidate then
    if cursorIndex < st.builder.length then cursorIndex + 1 else cursorIndex
  else
    if cursorIndex = 0 ∧ st.builder.length > 0 then cursorIndex + 1 else cursorIndex

/-- `KeyHandler.popEvictedTextAndWalk()`: when the grid has grown beyond
`composingBufferSize` and a walked path exists, remove the head anchor's
readings from the grid and report its value as the evicted text; then
re-walk. -/
def KHState.popEvictedTextAndWalk (env : Env ρ γ υ) (st : KHState ρ γ υ) :
    KHState ρ γ υ × String :=
  let (st, evictedText) :=
    if st.builder.length > st.composingBufferSize ∧ st.walkedNodes.length ≠ 0 then
      match st.walkedNodes with
      | [] => (st, "")
      | anchor :: _ =>
        let evictedText :=
          match anchor.node with
          | some n => n.currentKeyValue.value
          | none => ""
        ({ st with builder := st.builder.removeHeadReadings anchor.spanningLength },
         evictedText)
    else (st, "")
  (st.walkNow env, evictedText)

/-- The loop of `KeyHandler.fixNodesIfRequired` over the walked anchors,
carrying the running grid index and the grid state; the loop breaks once
the index reaches `width - kMaxComposingBufferNeedsToWalkSize` and, as in
the source, skips anchors without a node without advancing the index. -/
def fixNodesLoop (env : Env ρ γ υ) (builder : BuilderState) (width : Nat) :
    List NodeAnchor → Nat → γ → γ
  | [], _, g => g
  | anchor :: rest, index, g =>
    if index ≥ width - kMaxComposingBufferNeedsToWalkSize then g
    else
      match anchor.node with
      | none => fixNodesLoop env builder width rest index g
      | some n =>
        let g :=
          if n.score < kSelectedCandidateScore then
            (env.fixNodeSelectedCandidate builder g (index + anchor.spanningLength)
              n.currentKeyValue.value).1
          else g
        fixNodesLoop env builder width rest (index + anchor.spanningLength) g

/-- `KeyHandler.fixNodesIfRequired` (§4.6.1). -/
def KHState.fixNodesIfRequired (env : Env ρ γ υ) (st : KHState ρ γ υ) :
    KHState ρ γ υ :=
  let width := st.builder.length
  if width > kMaxComposingBufferNeedsToWalkSize then
    { st with gridAux := fixNodesLoop env st.builder width st.walkedNodes 0 st.gridAux }
  else st

/-! ## Composed-string construction (§4.6.3) -/

/-- `ComposedString` from `KeyHandler.ts`. -/
structure ComposedString where
  head : String
  tail : String
  tooltip : String
deriving DecidableEq, Repr

/-- The loop state of `KeyHandler.getComposedString`: the running
grid-unit cursor, the concatenated value string, the codepoint cursor and
the tooltip. -/
structure GcsAcc where
  runningCursor : Nat
  composed : String
  composedCursor : Nat
  tooltip : String
deriving DecidableEq, Repr

/-- One anchor's step of `KeyHandler.getComposedString`'s loop: append the
node's value; if the running cursor is still behind the builder cursor,
either advance it by the whole spanning length (accumulating the value's
codepoint length) or, when the builder cursor falls inside this anchor,
advance it to the builder cursor taking `min(distance, codepoints)`
codepoints and recording the between-syllables tooltip when the value is
shorter than the span. -/
def gcsStep (env : Env ρ γ υ) (readings : List String) (builderCursor : Nat)
    (acc : GcsAcc) (anchor : NodeAnchor) : GcsAcc :=
  match anchor.node with
  | none => acc
  | some node =>
    let value := node.currentKeyValue.value
    let composed := acc.composed ++ value
    if acc.runningCursor = builderCursor then
      { acc with composed := composed }
    else if acc.runningCursor + anchor.spanningLength ≤ builderCursor then
      { runningCursor := acc.runningCursor + anchor.spanningLength
        composed := composed
        composedCursor := acc.composedCursor + value.length
        tooltip := acc.tooltip }
    else
      let distance := builderCursor - acc.runningCursor
      let cpLen := min distance value.length
      let tooltip :=
        if value.length < anchor.spanningLength then
          env.cursorIsBetweenSyllables (readings.getD (builderCursor - 1) "")
            (readings.getD builderCursor "")
        else acc.tooltip
      { runningCursor := acc.runningCursor + distance
        composed := composed
        composedCursor := acc.composedCursor + cpLen
        tooltip := tooltip }

/-- The accumulator produced by `KeyHandler.getComposedString`'s loop over
the walked anchors. -/
def gcsFold (env : Env ρ γ υ) (st : KHState ρ γ υ) (builderCursor : Nat) : GcsAcc :=
  st.walkedNodes.foldl (gcsStep env st.builder.readings builderCursor) ⟨0, "", 0, ""⟩

/-- `KeyHandler.getComposedString(builderCursor)`: split the concatenated
walked values at the computed codepoint cursor. -/
def KHState.getComposedString (env : Env ρ γ υ) (st : KHState ρ γ υ)
    (builderCursor : Nat) : ComposedString :=
  let acc := gcsFold env st builderCursor
  { head := ⟨acc.composed.data.take acc.composedCursor⟩
    tail := ⟨acc.composed.data.drop acc.composedCursor⟩
    tooltip := acc.tooltip }

/-- `KeyHandler.buildInputtingState()`: insert the current reading between
the composed head and tail; the cursor is the codepoint length of
`head + reading`. -/
def KHState.buildInputtingState (env : Env ρ γ υ) (st : KHState ρ γ υ) :
    InputState :=
  let composedString := st.getComposedString env st.builder.cursor
  let head := composedString.head
  let reading := env.readingComposedString st.reading
  let tail := composedString.tail
  .inputting (head ++ reading ++ tail) (head.length + reading.length)
    composedString.tooltip ""

/-- `KeyHandler.buildChoosingCandidateState(nonEmptyState)`: collect the
candidates of every node crossing or ending at the actual candidate cursor,
longer keys first, keeping the non-empty state's buffer and cursor. -/
def KHState.buildChoosingCandidateState (env : Env ρ γ υ) (st : KHState ρ γ υ)
    (nonEmptyState : InputState) : InputState :=
  let anchoredNodes := env.nodesCrossingOrEndingAt st.builder st.gridAux
    st.actualCandidateCursorIndex
  let anchoredNodes := anchoredNodes.mergeSort
    (fun a b =>
      (match b.node with | some n => n.key.length | none => 0) ≤
      (match a.node with | some n => n.key.length | none => 0))
  let candidates := anchoredNodes.foldl
    (fun candidates anchor =>
      match anchor.node with
      | some n => candidates ++ n.candidates.map (fun kv => kv.value)
      | none => candidates)
    []
  .choosingCandidate nonEmptyState.notEmptyBuf nonEmptyState.notEmptyCursor
    candidates

/-- `MarkedPhraseExists(languageModel, readingValue, marked)` from
`KeyHandler.ts`. -/
def MarkedPhraseExists (env : Env ρ γ υ) (readingValue marked : String) : Bool :=
  (env.unigramsForKey readingValue).any (fun u => u.keyValue.value == marked)

/-- `KeyHandler.buildMarkingState(beginCursorIndex)` (§4.6.4): two composed
strings, the delta between the shorter and longer head is the marked text;
the marking is acceptable iff the reading count lies in
`[kMinValidMarkingReadingCount, kMaxValidMarkingReadingCount]` and the
marked phrase is not already in the language model. -/
def KHState.buildMarkingState (env : Env ρ γ υ) (st : KHState ρ γ υ)
    (beginCursorIndex : Nat) : InputState :=
  let from_ := st.getComposedString env beginCursorIndex
  let to_ := st.getComposedString env st.builder.cursor
  let composedStringCursorIndex := to_.head.length
  let composed := to_.head ++ to_.tail
  let fromIndex := beginCursorIndex
  let toIndex := st.builder.cursor
  let (from_, to_) :=
    if beginCursorIndex > st.builder.cursor then (to_, from_) else (from_, to_)
  let (fromIndex, toIndex) :=
    if beginCursorIndex > st.builder.cursor then (toIndex, fromIndex)
    else (fromIndex, toIndex)
  let head := from_.head
  let marked : String := ⟨to_.head.data.drop from_.head.length⟩
  let tail := to_.tail
  let readings := jsSlice st.builder.readings fromIndex toIndex
  let readingUiText := String.intercalate " " readings
  let readingValue := String.intercalate "-" readings
  let (isValid, status) :=
    if readings.length < kMinValidMarkingReadingCount then
      (false, env.syllablesRequired kMinValidMarkingReadingCount)
    else if readings.length > kMaxValidMarkingReadingCount then
      (false, env.syllableMaximum kMaxValidMarkingReadingCount)
    else if MarkedPhraseExists env readingValue marked then
      (false, env.phraseAlreadyExists)
    else (true, env.pressEnterToAddThePhrase)
  let tooltip := env.markedWithSyllablesAndStatus marked readingUiText status
  .marking composed composedStringCursorIndex tooltip beginCursorIndex head
    marked tail readingValue isValid

/-- The cursor-advance loop of `KeyHandler.pinNode`: accumulate spanning
lengths until the running position reaches the candidate cursor. -/
def pinNodeLoop (cursorIndex : Nat) : List NodeAnchor → Nat → Nat
  | [], nextPosition => nextPosition
  | anchor :: rest, nextPosition =>
    if nextPosition ≥ cursorIndex then nextPosition
    else pinNodeLoop cursorIndex rest (nextPosition + anchor.spanningLength)

/-- `KeyHandler.pinNode(candidate, useMoveCursorAfterSelectionSetting)`
(§4.6.5): fix the selected candidate at the actual candidate cursor,
observe the choice in the user-override model when its score is above
`kNoOverrideThreshold`, re-walk, and optionally advance the cursor to the
end of the owning node. -/
def KHState.pinNode (env : Env ρ γ υ) (st : KHState ρ γ υ) (candidate : String)
    (useMoveCursorAfterSelectionSetting : Bool) : KHState ρ γ υ :=
  let cursorIndex := st.actualCandidateCursorIndex
  let (g, selectedNode) :=
    env.fixNodeSelectedCandidate st.builder st.gridAux cursorIndex candidate
  let st := { st with gridAux := g }
  let st :=
    match selectedNode.node with
    | none => st
    | some n =>
      if n.scoreForCandidate candidate > kNoOverrideThreshold then
        { st with uom := env.observe st.uom st.walkedNodes cursorIndex candidate }
      else st
  let st := st.walkNow env
  if useMoveCursorAfterSelectionSetting ∧ st.moveCursorAfterSelection then
    let nextPosition := pinNodeLoop cursorIndex st.walkedNodes 0
    if nextPosition ≤ st.builder.length then
      { st with builder := { st.builder with cursor := nextPosition } }
    else st
  else st

/-! ## The key handler's sub-handlers -/

/-- The node-location loop of `KeyHandler.handleTabKey`: the first walked
anchor whose accumulated spanning length reaches the cursor (defaulting to
`new NodeAnchor()`). -/
def tabFindNode (cursorIndex : Nat) : List NodeAnchor → Nat → NodeAnchor
  | [], _ => ⟨none, 0⟩
  | anchor :: rest, len =>
    let len := len + anchor.spanningLength
    if len ≥ cursorIndex then anchor else tabFindNode cursorIndex rest len

/-- The candidate-scan loop of `KeyHandler.handleTabKey` for a node whose
candidate has been selected before: step to the next (or, with Shift, the
previous, wrapping from `0` to the end) index after the current value. -/
def tabScanLoop (total : Nat) (currentValue : Option String) (shift : Bool) :
    List String → Nat → Nat
  | [], currentIndex => currentIndex
  | candidate :: rest, currentIndex =>
    if some candidate = currentValue then
      if shift then
        if currentIndex = 0 then total - 1 else currentIndex - 1
      else currentIndex + 1
    else tabScanLoop total currentValue shift rest (currentIndex + 1)

/-- `KeyHandler.handleTabKey`. -/
def KHState.handleTabKey (env : Env ρ γ υ) (key : Key) (state : InputState)
    (st : KHState ρ γ υ) : HandleResult ρ γ υ :=
  if ¬ state.isInputting then ⟨st, [], 1, [], true⟩
  else if ¬ env.readingIsEmpty st.reading then ⟨st, [], 1, [], true⟩
  else
    let candidates := (st.buildChoosingCandidateState env state).candidatesOf
    if candidates.length = 0 then ⟨st, [], 1, [], true⟩
    else
      let cursorIndex := st.actualCandidateCursorIndex
      let currentNode := tabFindNode cursorIndex st.walkedNodes 0
      let currentValue := currentNode.node.map (fun n => n.currentKeyValue.value)
      let score := match currentNode.node with | some n => n.score | none => 0
      let currentIndex :=
        if score < kSelectedCandidateScore then
          if candidates.head? = currentValue then
            if key.shiftPressed then candidates.length - 1 else 1
          else 0
        else tabScanLoop candidates.length currentValue key.shiftPressed candidates 0
      let currentIndex := if currentIndex ≥ candidates.length then 0 else currentIndex
      let st := st.pinNode env (candidates.getD currentIndex "") false
      ⟨st, [st.buildInputtingState env], 0, [], true⟩

/-- `KeyHandler.handleCursorKeys`. -/
def KHState.handleCursorKeys (env : Env ρ γ υ) (key : Key) (state : InputState)
    (st : KHState ρ γ υ) : HandleResult ρ γ υ :=
  if ¬ state.isInputting ∧ ¬ state.isMarking then ⟨st, [], 0, [], false⟩
  else
    let markBeginCursorIndex :=
      if state.isMarking then state.markingMarkStart else st.builder.cursor
    if ¬ env.readingIsEmpty st.reading then
      ⟨st, [st.buildInputtingState env], 1, [], true⟩
    else
      let (st, isValidMove) :=
        match key.name with
        | KeyName.LEFT =>
          if st.builder.cursor > 0 then
            ({ st with builder := { st.builder with cursor := st.builder.cursor - 1 } },
             true)
          else (st, false)
        | KeyName.RIGHT =>
          if st.builder.cursor < st.builder.length then
            ({ st with builder := { st.builder with cursor := st.builder.cursor + 1 } },
             true)
          else (st, false)
        | KeyName.HOME =>
          ({ st with builder := { st.builder with cursor := 0 } }, true)
        | KeyName.END =>
          ({ st with builder := { st.builder with cursor := st.builder.length } }, true)
        | _ => (st, false)
      let errors := if isValidMove then 0 else 1
      if key.shiftPressed ∧ st.builder.cursor ≠ markBeginCursorIndex then
        ⟨st, [st.buildMarkingState env markBeginCursorIndex], errors, [], true⟩
      else
        ⟨st, [st.buildInputtingState env], errors, [], true⟩

/-- `KeyHandler.handleDeleteKeys`. -/
def KHState.handleDeleteKeys (env : Env ρ γ υ) (key : Key) (state : InputState)
    (st : KHState ρ γ υ) : HandleResult ρ γ υ :=
  if ¬ state.isNotEmpty then ⟨st, [], 0, [], false⟩
  else
    let afterMutation (st : KHState ρ γ υ) (errors : Nat) : HandleResult ρ γ υ :=
      if env.readingIsEmpty st.reading ∧ st.builder.length = 0 then
        ⟨st, [.emptyIgnoringPrevious], errors, [], true⟩
      else
        ⟨st, [st.buildInputtingState env], errors, [], true⟩
    if env.hasToneMarkerOnly st.reading then
      afterMutation { st with reading := env.clearReading } 0
    else if env.readingIsEmpty st.reading then
      if key.name = KeyName.BACKSPACE ∧ st.builder.cursor > 0 then
        afterMutation
          ((KHState.walkNow env)
            { st with builder := st.builder.deleteReadingBeforeCursor }) 0
      else if key.name = KeyName.DELETE ∧ st.builder.cursor < st.builder.length then
        afterMutation
          ((KHState.walkNow env)
            { st with builder := st.builder.deleteReadingAfterCursor }) 0
      else
        ⟨st, [st.buildInputtingState env], 1, [], true⟩
    else
      if key.name = KeyName.BACKSPACE then
        afterMutation { st with reading := env.backspaceReading st.reading } 0
      else
        afterMutation st 1

/-- `KeyHandler.handlePunctuation(punctuationUnigramKey)`. -/
def KHState.handlePunctuation (env : Env ρ γ υ) (st : KHState ρ γ υ)
    (punctuationUnigramKey : String) : HandleResult ρ γ υ :=
  if ¬ env.hasUnigramsForKey punctuationUnigramKey then ⟨st, [], 0, [], false⟩
  else if ¬ env.readingIsEmpty st.reading then
    ⟨st, [st.buildInputtingState env], 1, [], true⟩
  else
    let st := { st with
      builder := st.builder.insertReadingAtCursor punctuationUnigramKey }
    let (st, evictedText) := st.popEvictedTextAndWalk env
    let inputtingState := (st.buildInputtingState env).withEvicted evictedText
    if st.traditionalMode ∧ env.readingIsEmpty st.reading then
      let candidateState := st.buildChoosingCandidateState env inputtingState
      let st := st.reset env
      if candidateState.candidatesOf.length = 1 then
        ⟨st, [inputtingState, .committing (candidateState.candidatesOf.getD 0 "")],
         0, [], true⟩
      else
        ⟨st, [inputtingState, candidateState], 0, [], true⟩
    else
      ⟨st, [inputtingState], 0, [], true⟩

/-! ## `KeyHandler.handle` -/

/-- The uppercase-letter test of `KeyHandler.handle`:
`simpleAscii.length === 1 && simpleAscii >= "A" && simpleAscii <= "Z"`. -/
def isUpperAZ (s : String) : Bool :=
  match s.data with
  | [c] => 'A' ≤ c ∧ c ≤ 'Z'
  | _ => false

/-- The compose-reading branch of `KeyHandler.handle` (the source's
`shouldComposeReading` block): extract the syllable, clear the reading,
reject syllables without unigrams, otherwise insert the reading, pop
evicted text and walk, consult the user-override suggestion, fix settled
nodes, and emit; in traditional mode follow with candidates or an
immediate commit. -/
def KHState.composeReading (env : Env ρ γ υ) (st : KHState ρ γ υ) :
    HandleResult ρ γ υ :=
  let syllable := env.syllableComposedString st.reading
  let st := { st with reading := env.clearReading }
  if ¬ env.hasUnigramsForKey syllable then
    if st.builder.length = 0 then
      ⟨st, [.emptyIgnoringPrevious], 1, [], true⟩
    else
      ⟨st, [st.buildInputtingState env], 1, [], true⟩
  else
    let st := { st with builder := st.builder.insertReadingAtCursor syllable }
    let (st, evictedText) := st.popEvictedTextAndWalk env
    let st :=
      if ¬ st.traditionalMode then
        match env.suggest st.walkedNodes st.builder.cursor with
        | some overrideValue =>
          if overrideValue.length ≠ 0 then
            let cursorIndex := st.actualCandidateCursorIndex
            let nodes := env.nodesCrossingOrEndingAt st.builder st.gridAux
              cursorIndex
            let highestScore := FindHighestScore nodes kEpsilon
            { st with gridAux :=
                (env.overrideNodeScore st.builder st.gridAux
                  cursorIndex overrideValue highestScore) }
          else st
        | none => st
      else st
    let st := st.fixNodesIfRequired env
    let inputtingState := (st.buildInputtingState env).withEvicted evictedText
    if st.traditionalMode then
      let choosingCandidates := st.buildChoosingCandidateState env inputtingState
      let st := st.reset env
      if choosingCandidates.candidatesOf.length = 1 then
        ⟨st,
         [inputtingState, .committing (choosingCandidates.candidatesOf.getD 0 ""),
          .empty], 0, [], true⟩
      else
        ⟨st, [inputtingState, choosingCandidates], 0, [], true⟩
    else
      ⟨st, [inputtingState], 0, [], true⟩

/-- The `key.ascii != ""` block of `KeyHandler.handle`: layout-specific
punctuation, then generic punctuation, then the uppercase-letter paths. -/
def KHState.handleLatin (env : Env ρ γ υ) (key : Key) (state : InputState)
    (st : KHState ρ γ υ) : HandleResult ρ γ υ :=
  let chrStr := key.ascii
  let layoutPunctuation :=
    kPunctuationKeyPre ++ env.layoutName ++ "_" ++ chrStr
  let r1 := st.handlePunctuation env layoutPunctuation
  if r1.consumed then r1
  else
    let punctuation := kPunctuationKeyPre ++ chrStr
    let r2 := st.handlePunctuation env punctuation
    if r2.consumed then r2
    else if isUpperAZ key.ascii then
      if st.putLowercaseLettersToComposingBuffer then
        let r3 := st.handlePunctuation env (kLetterPre ++ chrStr)
        { r3 with consumed := true }
      else if ¬ state.isNotEmpty then
        ⟨st, [], 0, [], false⟩
      else
        ⟨st.reset env,
         [.committing (st.buildInputtingState env).notEmptyBuf,
          .committing chrStr], 0, [], true⟩
    else if state.isNotEmpty then
      ⟨st, [st.buildInputtingState env], 1, [], true⟩
    else
      ⟨st, [], 0, [], false⟩

/-- The tail of `KeyHandler.handle` once the key has been offered to the
reading buffer: compose when ready, else run through the Shift+Space,
candidate, ESC, Tab, cursor, delete, Enter, backtick, punctuation and
fallback branches in source order.  (The source's local
`shouldComposeReading` is inlined in the first condition, and the ESC
branch's cleared-reading state is written out, whose builder equals
`st.builder`.) -/
def KHState.handlePostReading (env : Env ρ γ υ) (key : Key)
    (state : InputState) (st : KHState ρ γ υ) (keyConsumedByReading : Bool) :
    HandleResult ρ γ υ :=
  if (env.hasToneMarker st.reading ∧ ¬ env.hasToneMarkerOnly st.reading) ∨
      (¬ env.readingIsEmpty st.reading ∧ key.name = KeyName.SPACE) then
    st.composeReading env
  else if keyConsumedByReading then
    ⟨st, [st.buildInputtingState env], 0, [], true⟩
  else if key.name = KeyName.SPACE ∧ key.shiftPressed then
    -- Shift + Space.
    if st.putLowercaseLettersToComposingBuffer then
      match ({ st with builder := st.builder.insertReadingAtCursor " " } :
          KHState ρ γ υ).popEvictedTextAndWalk env with
      | (st, evictedText) =>
        ⟨st, [(st.buildInputtingState env).withEvicted evictedText], 0, [], true⟩
    else if st.builder.length ≠ 0 then
      ⟨st.reset env,
       [.committing (st.buildInputtingState env).notEmptyBuf,
        InputState.committing " "], 0, [], true⟩
    else
      ⟨st.reset env, [InputState.committing " "], 0, [], true⟩
  else if (key.name = KeyName.SPACE ∨ key.name = KeyName.DOWN) ∧
      state.isNotEmpty ∧ env.readingIsEmpty st.reading then
    -- Space hit: enter the candidate choosing state.
    ⟨st, [st.buildChoosingCandidateState env state], 0, [], true⟩
  else if key.name = KeyName.ESC then
    if ¬ state.isNotEmpty then ⟨st, [], 0, [], false⟩
    else if st.escKeyClearsEntireComposingBuffer then
      ⟨st.reset env, [.emptyIgnoringPrevious], 0, [], true⟩
    else if ¬ env.readingIsEmpty st.reading then
      if st.builder.length = 0 then
        ⟨{ st with reading := env.clearReading }, [.emptyIgnoringPrevious],
         0, [], true⟩
      else
        ⟨{ st with reading := env.clearReading },
         (({ st with reading := env.clearReading } : KHState ρ γ υ).buildInputtingState
           env) :: [], 0, [], true⟩
    else
      ⟨st, [st.buildInputtingState env], 0, [], true⟩
  else if key.name = KeyName.TAB then
    st.handleTabKey env key state
  else if key.isCursorKeys then
    st.handleCursorKeys env key state
  else if key.isDeleteKeys then
    st.handleDeleteKeys env key state
  else if key.name = KeyName.RETURN then
    if ¬ state.isNotEmpty then ⟨st, [], 0, [], false⟩
    else if ¬ env.readingIsEmpty st.reading then
      ⟨st, [st.buildInputtingState env], 1, [], true⟩
    else if state.isMarking then
      if state.markingAcceptable then
        ⟨st, [st.buildInputtingState env], 0,
         if env.isWebLanguageModel then
           [(state.markingReading, state.markingMarkedText)]
         else [], true⟩
      else
        ⟨st, [st.buildMarkingState env state.markingMarkStart], 1, [], true⟩
    else
      ⟨st.reset env, [.committing (st.buildInputtingState env).notEmptyBuf],
       0, [], true⟩
  else if key.ascii = kPunctuationListKey ∧
      env.hasUnigramsForKey kPunctuationListUnigramKey then
    if env.readingIsEmpty st.reading then
      match ({ st with builder :=
          st.builder.insertReadingAtCursor kPunctuationListUnigramKey } :
          KHState ρ γ υ).popEvictedTextAndWalk env with
      | (st, evictedText) =>
        let inputtingState := (st.buildInputtingState env).withEvicted evictedText
        ⟨st,
         [inputtingState, st.buildChoosingCandidateState env inputtingState],
         0, [], true⟩
    else
      ⟨st, [], 1, [], true⟩
  else if key.ascii ≠ "" then
    st.handleLatin env key state
  else if state.isNotEmpty then
    ⟨st, [st.buildInputtingState env], 1, [], true⟩
  else
    ⟨st, [], 0, [], false⟩

/-- `KeyHandler.handle(key, state, stateCallback, errorCallback)`,
transcribed branch for branch from `KeyHandler.ts`: bare modifiers are not
consumed; a reading-legal key is combined and, short of a tone marker,
emits immediately; everything else continues in `handlePostReading`. -/
def KHState.handle (env : Env ρ γ υ) (key : Key) (state : InputState)
    (st : KHState ρ γ υ) : HandleResult ρ γ υ :=
  if key.ascii = "Shift" ∨ key.ascii = "Meta" ∨ key.ascii = "Alt" then
    ⟨st, [], 0, [], false⟩
  else if env.isValidKey st.reading key.ascii then
    -- See if it is a valid BPMF reading.
    let st := { st with reading := env.combineKey st.reading key.ascii }
    if ¬ env.hasToneMarker st.reading then
      ⟨st, [st.buildInputtingState env], 0, [], true⟩
    else
      st.handlePostReading env key state true
  else
    st.handlePostReading env key state false

/-! ## Concrete instances for witnesses and counterexamples -/

/-- A trivial collaborator environment over unit states: no key is a valid
reading key, the language model is empty, the walker returns the empty
path. -/
def unitEnv : Env Unit Unit Unit where
  isValidKey := fun _ _ => false
  combineKey := fun _ _ => ()
  hasToneMarker := fun _ => false
  hasToneMarkerOnly := fun _ => false
  readingIsEmpty := fun _ => true
  syllableComposedString := fun _ => ""
  readingComposedString := fun _ => ""
  clearReading := ()
  backspaceReading := fun _ => ()
  layoutName := "Standard"
  hasUnigramsForKey := fun _ => false
  unigramsForKey := fun _ => []
  isWebLanguageModel := false
  emptyGrid := ()
  walk := fun _ _ => []
  nodesCrossingOrEndingAt := fun _ _ _ => []
  fixNodeSelectedCandidate := fun _ _ _ _ => ((), ⟨none, 0⟩)
  overrideNodeScore := fun _ _ _ _ _ => ()
  suggest := fun _ _ => none
  observe := fun _ _ _ _ => ()
  cursorIsBetweenSyllables := fun _ _ => ""
  syllablesRequired := fun _ => ""
  syllableMaximum := fun _ => ""
  phraseAlreadyExists := ""
  pressEnterToAddThePhrase := ""
  markedWithSyllablesAndStatus := fun _ _ _ => ""

/-- A handler state over unit collaborators with the default
configuration. -/
def unitState : KHState Unit Unit Unit where
  reading := ()
  builder := ⟨[], 0⟩
  gridAux := ()
  walkedNodes := []
  uom := ()
  composingBufferSize := kComposingBufferSize
  traditionalMode := false
  selectPhraseAfterCursorAsCandidate := false
  moveCursorAfterSelection := false
  putLowercaseLettersToComposingBuffer := false
  escKeyClearsEntireComposingBuffer := false

/-! ## C9: the composing-buffer-size setter clamps to [4, 100] -/

/-- C9: for every integer passed to the composing-buffer-size setter, the
stored value lies in `[4, 100]`; values above `100` are clamped to `100`
and values below `4` are clamped to `4`. -/
theorem composingBufferSize_setter_clamps (value : Int) :
    4 ≤ setComposingBufferSize value ∧ setComposingBufferSize value ≤ 100 ∧
    (value > 100 → setComposingBufferSize value = 100) ∧
    (value < 4 → setComposingBufferSize value = 4) := by
  simp only [setComposingBufferSize, kMaxComposingBufferSize,
    kMinComposingBufferSize]
  refine ⟨?_, ?_, ?_, ?_⟩ <;> (try intro h) <;> split <;> (try split) <;> omega

/-- Witness for C9 at the inputs `200` and `-7`. -/
theorem composingBufferSize_setter_clamps_witness :
    ((200 : Int) > 100 ∧ setComposingBufferSize 200 = 100) ∧
    ((-7 : Int) < 4 ∧ setComposingBufferSize (-7) = 4) :=
  ⟨⟨by decide, (composingBufferSize_setter_clamps 200).2.2.1 (by decide)⟩,
   ⟨by decide, (composingBufferSize_setter_clamps (-7)).2.2.2 (by decide)⟩⟩

/-! ## C5: the actual candidate cursor index -/

/-- C5: for every grid cursor `c ∈ [0, W]`, the actual candidate cursor
index is `c + 1` when select-phrase-after-cursor is enabled and `c < W`;
`c + 1` when it is disabled, `c = 0` and `W > 0`; and `c` otherwise. -/
theorem actualCandidateCursorIndex_cases (st : KHState ρ γ υ)
    (hc : st.builder.cursor ≤ st.builder.length) :
    (st.selectPhraseAfterCursorAsCandidate = true →
      st.builder.cursor < st.builder.length →
      st.actualCandidateCursorIndex = st.builder.cursor + 1) ∧
    (st.selectPhraseAfterCursorAsCandidate = false →
      st.builder.cursor = 0 → st.builder.length > 0 →
      st.actualCandidateCursorIndex = st.builder.cursor + 1) ∧
    (¬ (st.selectPhraseAfterCursorAsCandidate = true ∧
        st.builder.cursor < st.builder.length) →
     ¬ (st.selectPhraseAfterCursorAsCandidate = false ∧
        st.builder.cursor = 0 ∧ st.builder.length > 0) →
      st.actualCandidateCursorIndex = st.builder.cursor) := by
  unfold KHState.actualCandidateCursorIndex
  rcases hsel : st.selectPhraseAfterCursorAsCandidate <;>
    refine ⟨?_, ?_, ?_⟩ <;> intros <;> simp_all <;> omega

/-- A two-reading handler state with the cursor in the middle and
select-phrase-after-cursor enabled. -/
def afterCursorState : KHState Unit Unit Unit :=
  { unitState with
    builder := ⟨["a", "b"], 1⟩
    selectPhraseAfterCursorAsCandidate := true }

/-- A two-reading handler state with the cursor at the start. -/
def beforeCursorState0 : KHState Unit Unit Unit :=
  { unitState with builder := ⟨["a", "b"], 0⟩ }

/-- A two-reading handler state with the cursor at the end. -/
def beforeCursorState2 : KHState Unit Unit Unit :=
  { unitState with builder := ⟨["a", "b"], 2⟩ }

/-- Witness for C5 with both configurations at a two-reading grid. -/
theorem actualCandidateCursorIndex_cases_witness :
    afterCursorState.actualCandidateCursorIndex = 1 + 1 ∧
    beforeCursorState0.actualCandidateCursorIndex = 0 + 1 ∧
    beforeCursorState2.actualCandidateCursorIndex = 2 :=
  ⟨(actualCandidateCursorIndex_cases afterCursorState (by decide)).1
      rfl (by decide),
   (actualCandidateCursorIndex_cases beforeCursorState0 (by decide)).2.1
      rfl rfl (by decide),
   (actualCandidateCursorIndex_cases beforeCursorState2 (by decide)).2.2
      (by decide) (by decide)⟩

/-! ## C7: `_-` survives the absolute-order transform -/

/-- Segments that begin with `"_"` are mapped verbatim, so the segment map
of `maybeAbsoluteOrderKey` is the identity on a list of such segments. -/
theorem mapVerbatimOfAll (h : String → String) (l : List (List Char))
    (hl : (l.all fun s => "_".data.isPrefixOf s) = true) :
    l.map (fun s => if "_".data.isPrefixOf s then s else (h ⟨s⟩).data) = l := by
  induction l with
  | nil => rfl
  | cons x xs ih =>
    simp only [List.all_cons, Bool.and_eq_true] at hl
    simp only [List.map_cons]
    rw [if_pos hl.1, ih hl.2]

/-- C7: `"_punctuation_Hsu_-"` passes through `maybeAbsoluteOrderKey`
unchanged for every absolute-order translation, and in general a key all of
whose (protected) hyphen-separated segments begin with `"_"` is transformed
independently of the absolute-order translation — every such segment is
kept verbatim rather than translated. -/
theorem maybeAbsoluteOrderKey_protected (f g : String → String) (key : String)
    (hall : ((jsSplit "-".data
        (jsReplaceAll "_-".data "_______".data key.data)).all
      (fun s => "_".data.isPrefixOf s)) = true) :
    maybeAbsoluteOrderKey f "_punctuation_Hsu_-" = "_punctuation_Hsu_-" ∧
    maybeAbsoluteOrderKey f key = maybeAbsoluteOrderKey g key := by
  constructor
  · rfl
  · simp only [maybeAbsoluteOrderKey]
    rw [mapVerbatimOfAll f _ hall, mapVerbatimOfAll g _ hall]

/-- Witness for C7: the headline key, plus a two-protected-segment key on
two different translations. -/
theorem maybeAbsoluteOrderKey_protected_witness :
    maybeAbsoluteOrderKey (fun s => "X" ++ s) "_punctuation_Hsu_-" =
      "_punctuation_Hsu_-" ∧
    maybeAbsoluteOrderKey (fun s => "X" ++ s) "_punctuation_Hsu_--_letter_A" =
      maybeAbsoluteOrderKey (fun _ => "") "_punctuation_Hsu_--_letter_A" :=
  ⟨(maybeAbsoluteOrderKey_protected (fun s => "X" ++ s) (fun _ => "")
      "_punctuation_Hsu_-" (by decide)).1,
   (maybeAbsoluteOrderKey_protected (fun s => "X" ++ s) (fun _ => "")
      "_punctuation_Hsu_--_letter_A" (by decide)).2⟩

/-! ## C4: acceptability of a marking -/

/-- The validation chain of `buildMarkingState` produces `true` exactly for
a reading count within bounds and an absent phrase. -/
theorem markingValidation (n : Nat) (b : Bool) (s1 s2 s3 s4 : String) :
    ((if n < kMinValidMarkingReadingCount then (false, s1)
      else if n > kMaxValidMarkingReadingCount then (false, s2)
      else if b = true then (false, s3)
      else (true, s4)).1 = true) ↔
    (kMinValidMarkingReadingCount ≤ n ∧ n ≤ kMaxValidMarkingReadingCount ∧
      b = false) := by
  cases b <;> split <;> (try split) <;> (try split) <;> simp_all <;>
    first
    | omega
    | (simp [kMinValidMarkingReadingCount, kMaxValidMarkingReadingCount] at * <;>
        omega)

/-- C4: a `Marking` state built by `buildMarkingState` is acceptable iff
the marked range holds between 2 and 6 readings and the marked phrase
does not already exist in the language model under the state's
hyphen-joined reading key. -/
theorem buildMarkingState_acceptable_iff (env : Env ρ γ υ)
    (st : KHState ρ γ υ) (beginCursorIndex : Nat) :
    ((st.buildMarkingState env beginCursorIndex).markingAcceptable = true) ↔
    (kMinValidMarkingReadingCount ≤
        (jsSlice st.builder.readings (min beginCursorIndex st.builder.cursor)
          (max beginCursorIndex st.builder.cursor)).length ∧
      (jsSlice st.builder.readings (min beginCursorIndex st.builder.cursor)
          (max beginCursorIndex st.builder.cursor)).length ≤
        kMaxValidMarkingReadingCount ∧
      MarkedPhraseExists env
          ((st.buildMarkingState env beginCursorIndex).markingReading)
          ((st.buildMarkingState env beginCursorIndex).markingMarkedText) =
        false) := by
  unfold KHState.buildMarkingState
  by_cases h : beginCursorIndex > st.builder.cursor
  · simp only [h, if_true, InputState.markingAcceptable,
      InputState.markingReading, InputState.markingMarkedText,
      Nat.min_eq_right (le_of_lt h), Nat.max_eq_left (le_of_lt h)]
    exact markingValidation _ _ _ _ _ _
  · simp only [h, if_false, InputState.markingAcceptable,
      InputState.markingReading, InputState.markingMarkedText,
      Nat.min_eq_left (Nat.le_of_not_lt h), Nat.max_eq_right (Nat.le_of_not_lt h)]
    exact markingValidation _ _ _ _ _ _

/-! ## C6: `add_user_phrase` -/

/-- `mapSet` binds the key to the given value. -/
theorem mapGet_mapSet_self (m : List (String × α)) (k : String) (v : α) :
    mapGet (mapSet m k v) k = some v := by
  induction m with
  | nil => simp [mapGet, mapSet]
  | cons p rest ih =>
    by_cases h : p.1 = k
    · simp [mapGet, mapSet, h]
    · simp only [mapSet]
      rw [if_neg (by simpa using h)]
      simpa [mapGet, List.find?, (by simpa using h : (p.1 == k) = false)] using ih

/-- A language model whose user-phrase store binds `"k"` to `["a"]`, with
no converters. -/
def wlmA : WebLanguageModel where
  map_ := []
  userPhrases_ := ⟨[("k", ["a"])]⟩
  converter_ := none
  addUserPhraseConverter := none
  absoluteOrderString := id

/-- Counterexample to C6 as stated: adding `"b"` under `"k"` when `["a"]`
is stored yields `["a", "b"]` — the new phrase is appended after the
previously stored phrase, not prepended before it. -/
theorem addUserPhrase_not_prepended :
    mapGet (wlmA.addUserPhrase "k" "b").1.userPhrases_.map_ "k" =
      some ["a", "b"] ∧
    ¬ (mapGet (wlmA.addUserPhrase "k" "b").1.userPhrases_.map_ "k" =
      some ["b", "a"]) := by
  constructor <;> decide

/-- C6 (amended): `add_user_phrase` appends the phrase after the
previously stored phrases for that key (it does not prepend), does not
store a phrase already present, applies the input converter (when set)
before storage, and notifies the change callback exactly when the phrase
was stored. -/
theorem addUserPhrase_appends (m : WebLanguageModel) (key phrase : String) :
    (∀ list, mapGet m.userPhrases_.map_ key = some list →
      ((list.contains (m.addUserPhraseConverter.elim phrase
          (fun c => (c phrase).getD phrase))) = true →
        (m.addUserPhrase key phrase).1.userPhrases_ = m.userPhrases_ ∧
        (m.addUserPhrase key phrase).2 = false) ∧
      ((list.contains (m.addUserPhraseConverter.elim phrase
          (fun c => (c phrase).getD phrase))) = false →
        mapGet (m.addUserPhrase key phrase).1.userPhrases_.map_ key =
          some (list ++ [m.addUserPhraseConverter.elim phrase
            (fun c => (c phrase).getD phrase)]) ∧
        (m.addUserPhrase key phrase).2 = true)) ∧
    (mapGet m.userPhrases_.map_ key = none →
      mapGet (m.addUserPhrase key phrase).1.userPhrases_.map_ key =
        some [m.addUserPhraseConverter.elim phrase
          (fun c => (c phrase).getD phrase)] ∧
      (m.addUserPhrase key phrase).2 = true) := by
  rcases hc : m.addUserPhraseConverter with _ | c <;>
    simp only [WebLanguageModel.addUserPhrase, UserPhrases.addUserPhrase, hc,
      Option.elim] <;>
    refine ⟨fun list hlist => ⟨fun hdup => ?_, fun hdup => ?_⟩,
      fun hnone => ?_⟩
  · simp only [hlist]
    rw [if_pos hdup]
    exact ⟨rfl, rfl⟩
  · simp only [hlist]
    rw [if_neg (by rw [hdup]; exact Bool.false_ne_true)]
    refine ⟨mapGet_mapSet_self _ _ _, ?_⟩
    trivial
  · simp only [hnone]
    refine ⟨mapGet_mapSet_self _ _ _, ?_⟩
    trivial
  · simp only [hlist]
    rw [if_pos hdup]
    exact ⟨rfl, rfl⟩
  · simp only [hlist]
    rw [if_neg (by rw [hdup]; exact Bool.false_ne_true)]
    refine ⟨mapGet_mapSet_self _ _ _, ?_⟩
    trivial
  · simp only [hnone]
    refine ⟨mapGet_mapSet_self _ _ _, ?_⟩
    trivial

/-- Witness for C6 (amended): adding a fresh phrase under a bound key. -/
theorem addUserPhrase_appends_witness :
    mapGet (wlmA.addUserPhrase "k" "b").1.userPhrases_.map_ "k" =
      some (["a"] ++ ["b"]) ∧
    (wlmA.addUserPhrase "k" "b").2 = true :=
  ((addUserPhrase_appends wlmA "k" "b").1 ["a"] (by decide)).2 (by decide)

/-! ## C2: the merged unigram list -/

/-- `List.contains` through membership, for `String` lists. -/
theorem contains_eq_decide_mem (l : List String) (v : String) :
    l.contains v = decide (v ∈ l) :=
  List.elem_eq_mem v l

/-- `dedupByValue` on the empty list. -/
theorem dedupByValue_nil (used : List String) : dedupByValue used [] = [] := rfl

/-- `dedupByValue` on a cons. -/
theorem dedupByValue_cons (used : List String) (u : Unigram)
    (rest : List Unigram) :
    dedupByValue used (u :: rest) =
      if used.contains u.keyValue.value then dedupByValue used rest
      else u :: dedupByValue (used ++ [u.keyValue.value]) rest := rfl

/-- `dedupByValue` only depends on the membership of the seen-values
list. -/
theorem dedupByValue_congr (used1 used2 : List String)
    (h : ∀ w, w ∈ used1 ↔ w ∈ used2) (l : List Unigram) :
    dedupByValue used1 l = dedupByValue used2 l := by
  induction l generalizing used1 used2 with
  | nil => rfl
  | cons u rest ih =>
    rw [dedupByValue_cons, dedupByValue_cons]
    have hc : used1.contains u.keyValue.value = used2.contains u.keyValue.value := by
      rw [contains_eq_decide_mem, contains_eq_decide_mem]
      simp [h u.keyValue.value]
    rw [hc]
    split
    · exact ih used1 used2 h
    · rw [ih (used1 ++ [u.keyValue.value]) (used2 ++ [u.keyValue.value])
        (fun w => by simp [List.mem_append, h w])]

/-- Extending the seen-values list by an already-seen value does not change
`dedupByValue`. -/
theorem dedupByValue_append_seen (used : List String) (v : String)
    (hv : v ∈ used) (l : List Unigram) :
    dedupByValue (used ++ [v]) l = dedupByValue used l := by
  apply dedupByValue_congr
  intro w
  simp only [List.mem_append, List.mem_singleton]
  constructor
  · rintro (hw | hw)
    · exact hw
    · exact hw ▸ hv
  · exact fun hw => Or.inl hw

/-- Splitting `dedupByValue` at an append: the second part is deduplicated
against the first part's values as well. -/
theorem dedupByValue_append (used : List String) (A B : List Unigram) :
    dedupByValue used (A ++ B) =
      dedupByValue used A ++
        dedupByValue (used ++ A.map (fun u => u.keyValue.value)) B := by
  induction A generalizing used with
  | nil => simp [dedupByValue_nil]
  | cons u A' ih =>
    rw [List.cons_append, dedupByValue_cons, dedupByValue_cons, List.map_cons]
    by_cases hm : used.contains u.keyValue.value = true
    · rw [if_pos hm, if_pos hm, ih]
      have hv : u.keyValue.value ∈ used := by
        rw [contains_eq_decide_mem] at hm
        simpa using hm
      congr 1
      rw [show used ++ u.keyValue.value :: A'.map (fun u => u.keyValue.value) =
        (used ++ [u.keyValue.value]) ++ A'.map (fun u => u.keyValue.value) by simp]
      apply dedupByValue_congr
      intro w
      simp only [List.mem_append, List.mem_singleton]
      constructor
      · rintro (hw | hw)
        · exact Or.inl (Or.inl hw)
        · exact Or.inr hw
      · rintro ((hw | hw) | hw)
        · exact Or.inl hw
        · exact Or.inl (hw ▸ hv)
        · exact Or.inr hw
    · rw [if_neg hm, if_neg hm, ih]
      rw [show used ++ u.keyValue.value :: A'.map (fun u => u.keyValue.value) =
        (used ++ [u.keyValue.value]) ++ A'.map (fun u => u.keyValue.value) by simp]
      simp

/-- One step of the user-phrase pass, normalised: convert the value, keep
the unigram under the pass's key when the value is fresh, and record the
value.  Requires the unigram to carry the pass's key, as the unigrams of
`UserPhrases.unigramsForKey` do. -/
theorem userLoopStep_eq (m : WebLanguageModel) (key : String) (u : Unigram)
    (hu : u.keyValue.key = key) (acc : List Unigram × List String) :
    userLoopStep m key acc u =
      (if acc.2.contains (m.conv u.keyValue.value) then acc.1
       else acc.1 ++ [⟨⟨key, m.conv u.keyValue.value⟩, u.score⟩],
       acc.2 ++ [m.conv u.keyValue.value]) := by
  rcases hc : m.converter_ with _ | c
  · rcases u with ⟨⟨uk, uv⟩, us⟩
    simp only [userLoopStep, WebLanguageModel.conv, hc]
    simp_all
  · simp only [userLoopStep, WebLanguageModel.conv, hc]

/-- The user-phrase pass of `unigramsForKey` is keep-first value
deduplication of the converted user unigrams, the seen-values list
collecting every converted value. -/
theorem userFold_spec (m : WebLanguageModel) (key : String) (l : List Unigram)
    (hkey : ∀ u ∈ l, u.keyValue.key = key) (res : List Unigram)
    (used : List String) :
    l.foldl (userLoopStep m key) (res, used) =
      (res ++ dedupByValue used
        (l.map (fun u => ⟨⟨key, m.conv u.keyValue.value⟩, u.score⟩)),
       used ++ l.map (fun u => m.conv u.keyValue.value)) := by
  induction l generalizing res used with
  | nil => simp [dedupByValue_nil]
  | cons u rest ih =>
    have hu : u.keyValue.key = key := hkey u (by simp)
    have hrest : ∀ x ∈ rest, x.keyValue.key = key := fun x hx =>
      hkey x (by simp [hx])
    simp only [List.foldl_cons, List.map_cons]
    rw [userLoopStep_eq m key u hu, dedupByValue_cons]
    by_cases hm : used.contains (m.conv u.keyValue.value) = true
    · have hv : m.conv u.keyValue.value ∈ used := by
        rw [contains_eq_decide_mem] at hm
        simpa using hm
      rw [if_pos hm, if_pos hm, ih hrest]
      rw [dedupByValue_append_seen used _ hv]
      simp
    · rw [if_neg hm, if_neg hm, ih hrest]
      simp

/-- The static-dictionary pass of `unigramsForKey` is keep-first value
deduplication of the converted static pairs against the values already
seen. -/
theorem staticFold_spec (m : WebLanguageModel) (key : String)
    (l : List (String × ℚ)) (res : List Unigram) (used : List String) :
    l.foldl (staticLoopStep m key) (res, used) =
      (res ++ dedupByValue used (l.map (fun vs => ⟨⟨key, m.conv vs.1⟩, vs.2⟩)),
       used ++ l.map (fun vs => m.conv vs.1)) := by
  induction l generalizing res used with
  | nil => simp [dedupByValue_nil]
  | cons vs rest ih =>
    simp only [List.foldl_cons, List.map_cons, staticLoopStep]
    rw [dedupByValue_cons]
    by_cases hm : used.contains (m.conv vs.1) = true
    · have hv : m.conv vs.1 ∈ used := by
        rw [contains_eq_decide_mem] at hm
        simpa using hm
      rw [if_pos hm, if_pos hm, ih]
      rw [dedupByValue_append_seen used _ hv]
      simp
    · rw [if_neg hm, if_neg hm, ih]
      simp

/-- Every unigram of `UserPhrases.unigramsForKey key` carries `key` and
score `0`. -/
theorem userPhrases_unigram_fields (up : UserPhrases) (key : String) :
    ∀ u ∈ up.unigramsForKey key, u.keyValue.key = key ∧ u.score = 0 := by
  unfold UserPhrases.unigramsForKey
  intro u hu
  rcases hmg : mapGet up.map_ key with _ | l
  · rw [hmg] at hu
    simp at hu
  · rw [hmg] at hu
    simp only [List.mem_map] at hu
    obtain ⟨item, _, rfl⟩ := hu
    exact ⟨rfl, rfl⟩

/-- C2: `unigrams_for(key)` equals the specification's merge — user-phrase
entries (each of score 0, by `userPhrases_unigram_fields`) before
static-dictionary entries, deduplicated by value with the user entries
winning, the converter applied to every value — and the key `" "` yields
exactly the identity unigram. -/
theorem unigramsForKey_merge (m : WebLanguageModel) (key : String) :
    m.unigramsForKey key = specMergedUnigrams m key ∧
    (∀ u ∈ m.userPhrases_.unigramsForKey key, u.score = 0) ∧
    m.unigramsForKey " " = [⟨⟨" ", " "⟩, 0⟩] := by
  refine ⟨?_, fun u hu => (userPhrases_unigram_fields m.userPhrases_ key u hu).2,
    rfl⟩
  by_cases hsp : key = " "
  · simp [WebLanguageModel.unigramsForKey, specMergedUnigrams, hsp]
  · unfold WebLanguageModel.unigramsForKey specMergedUnigrams
    rw [if_neg hsp, if_neg hsp]
    have hkey : ∀ u ∈ m.userPhrases_.unigramsForKey key, u.keyValue.key = key :=
      fun u hu => (userPhrases_unigram_fields m.userPhrases_ key u hu).1
    rcases hmk : mapGet m.map_ (maybeAbsoluteOrderKey m.absoluteOrderString key)
      with _ | pairs
    · rw [userFold_spec m key _ hkey [] []]
      simp [hmk]
    · rw [userFold_spec m key _ hkey [] []]
      simp only [hmk, List.nil_append]
      rw [staticFold_spec, dedupByValue_append]
      simp only [List.map_map, List.nil_append]
      congr 1

/-! ## C1: the insert-and-evict step -/

/-- Lines 230–231 of `KeyHandler.handle`: insert the composed syllable at
the grid cursor, then pop evicted text and re-walk. -/
def KHState.insertAndEvict (env : Env ρ γ υ) (st : KHState ρ γ υ)
    (syllable : String) : KHState ρ γ υ × String :=
  ({ st with builder := st.builder.insertReadingAtCursor syllable }).popEvictedTextAndWalk
    env

/-- `popEvictedTextAndWalk` on an over-full grid with a non-empty walked
path removes the head anchor's readings and reports the head node's
value. -/
theorem popEvictedTextAndWalk_evicts (env : Env ρ γ υ) (st1 : KHState ρ γ υ)
    (a : NodeAnchor) (rest : List NodeAnchor) (nd : Node)
    (hw : st1.walkedNodes = a :: rest) (hnode : a.node = some nd)
    (hgt : st1.builder.length > st1.composingBufferSize) :
    st1.popEvictedTextAndWalk env =
      (KHState.walkNow env
        { st1 with builder := st1.builder.removeHeadReadings a.spanningLength },
       nd.currentKeyValue.value) := by
  unfold KHState.popEvictedTextAndWalk
  rw [hw, if_pos ⟨hgt, by simp⟩]
  dsimp only
  rw [hnode]

/-- C1 (amended): inserting a reading when the grid width `W` equals
`composingBufferSize` evicts exactly the walked path's head anchor, whose
spanning length `s ≥ 1` may exceed one reading: afterwards
`W = composingBufferSize + 1 - s ≤ composingBufferSize` (equality only for
`s = 1`), the evicted readings are the first `s` readings of the
post-insert grid, and the evicted text is the head node's value, non-empty
whenever that value is non-empty. -/
theorem insertAndEvict_evicts_head (env : Env ρ γ υ) (st : KHState ρ γ υ)
    (syllable : String) (a : NodeAnchor) (rest : List NodeAnchor) (nd : Node)
    (hw : st.walkedNodes = a :: rest) (hnode : a.node = some nd)
    (hspan : 1 ≤ a.spanningLength) (hval : nd.currentKeyValue.value ≠ "")
    (hcur : st.builder.cursor ≤ st.builder.length)
    (hfull : st.builder.length = st.composingBufferSize) :
    (st.insertAndEvict env syllable).1.builder.length =
      st.composingBufferSize + 1 - a.spanningLength ∧
    (st.insertAndEvict env syllable).1.builder.length ≤ st.composingBufferSize ∧
    (st.insertAndEvict env syllable).1.builder.readings =
      (st.builder.insertReadingAtCursor syllable).readings.drop a.spanningLength ∧
    (st.insertAndEvict env syllable).2 = nd.currentKeyValue.value ∧
    (st.insertAndEvict env syllable).2 ≠ "" := by
  have hlen1 : (st.builder.insertReadingAtCursor syllable).readings.length =
      st.composingBufferSize + 1 := by
    unfold BuilderState.insertReadingAtCursor
    rw [List.length_insertIdx _ _ hcur]
    exact congrArg (· + 1) hfull
  have h := popEvictedTextAndWalk_evicts env
    { st with builder := st.builder.insertReadingAtCursor syllable }
    a rest nd hw hnode
    (by show (st.builder.insertReadingAtCursor syllable).readings.length >
          st.composingBufferSize
        rw [hlen1]
        omega)
  unfold KHState.insertAndEvict
  rw [h]
  dsimp only [KHState.walkNow, BuilderState.removeHeadReadings,
    BuilderState.length]
  simp only [List.length_drop, hlen1]
  refine ⟨?_, ?_, ?_, ?_, ?_⟩ <;> first | trivial | omega | exact hval


/-- A node with candidate value `v`. -/
def mkNode (v : String) : Node where
  key := v
  currentKeyValue := ⟨v, v⟩
  candidates := [⟨v, v⟩]
  score := 0
  highestUnigramScore := 0
  scoreForCandidate := fun _ => 0

/-- A concrete collaborator environment whose reading buffer accumulates
the keys `"q"` and `"t"` (with `"t"` the tone marker), whose language
model accepts every key, and whose walker returns the empty path. -/
def evictEnv : Env (List String) Unit Unit where
  isValidKey := fun _ ch => ch == "q" || ch == "t"
  combineKey := fun r ch => r ++ [ch]
  hasToneMarker := fun r => r.contains "t"
  hasToneMarkerOnly := fun r => r == ["t"]
  readingIsEmpty := fun r => r.isEmpty
  syllableComposedString := fun r => String.join r
  readingComposedString := fun r => String.join r
  clearReading := []
  backspaceReading := fun r => r.dropLast
  layoutName := "Standard"
  hasUnigramsForKey := fun _ => true
  unigramsForKey := fun _ => []
  isWebLanguageModel := false
  emptyGrid := ()
  walk := fun _ _ => []
  nodesCrossingOrEndingAt := fun _ _ _ => []
  fixNodeSelectedCandidate := fun _ _ _ _ => ((), ⟨none, 0⟩)
  overrideNodeScore := fun _ _ _ _ _ => ()
  suggest := fun _ _ => none
  observe := fun _ _ _ _ => ()
  cursorIsBetweenSyllables := fun _ _ => ""
  syllablesRequired := fun _ => ""
  syllableMaximum := fun _ => ""
  phraseAlreadyExists := ""
  pressEnterToAddThePhrase := ""
  markedWithSyllablesAndStatus := fun _ _ _ => ""

/-- A handler state whose four-reading grid is exactly at
`composingBufferSize = 4`, whose pending reading is `["q"]`, and whose
walked path starts with a two-reading phrase node valued `"XY"`. -/
def evictState : KHState (List String) Unit Unit where
  reading := ["q"]
  builder := ⟨["a", "b", "c", "d"], 4⟩
  gridAux := ()
  walkedNodes := [⟨some (mkNode "XY"), 2⟩, ⟨some (mkNode "ZW"), 2⟩]
  uom := ()
  composingBufferSize := 4
  traditionalMode := false
  selectPhraseAfterCursorAsCandidate := false
  moveCursorAfterSelection := false
  putLowercaseLettersToComposingBuffer := false
  escKeyClearsEntireComposingBuffer := false

/-- Counterexample to C1 as stated: handling the composing key `"t"` on a
grid whose width equals `composingBufferSize = 4` evicts the two-reading
head anchor, leaving width `3 ≠ 4` — the width does not stay equal to
`composingBufferSize` (the evicted text `"XY"` is nevertheless
non-empty). -/
theorem evict_width_not_preserved :
    evictState.builder.length = evictState.composingBufferSize ∧
    (evictState.handle evictEnv ⟨"t", KeyName.ASCII, false, false⟩
      InputState.empty).consumed = true ∧
    (evictState.handle evictEnv ⟨"t", KeyName.ASCII, false, false⟩
      InputState.empty).st.builder.readings = ["c", "d", "qt"] ∧
    (evictState.handle evictEnv ⟨"t", KeyName.ASCII, false, false⟩
      InputState.empty).st.builder.length = 3 ∧
    ¬ ((evictState.handle evictEnv ⟨"t", KeyName.ASCII, false, false⟩
      InputState.empty).st.builder.length = evictState.composingBufferSize) ∧
    (evictState.handle evictEnv ⟨"t", KeyName.ASCII, false, false⟩
      InputState.empty).emitted = [.inputting "" 0 "" "XY"] := by
  refine ⟨rfl, ?_, ?_, ?_, by decide, ?_⟩ <;> rfl

/-- Witness for C1 (amended) at the concrete eviction state. -/
theorem insertAndEvict_evicts_head_witness :
    (evictState.insertAndEvict evictEnv "qt").1.builder.length =
      evictState.composingBufferSize + 1 - 2 ∧
    (evictState.insertAndEvict evictEnv "qt").1.builder.length ≤
      evictState.composingBufferSize ∧
    (evictState.insertAndEvict evictEnv "qt").2 = "XY" ∧
    (evictState.insertAndEvict evictEnv "qt").2 ≠ "" := by
  have h := insertAndEvict_evicts_head evictEnv evictState "qt"
    ⟨some (mkNode "XY"), 2⟩ [⟨some (mkNode "ZW"), 2⟩] (mkNode "XY")
    rfl rfl (by decide) (by decide) (by decide) (by decide)
  exact ⟨h.1, h.2.1, h.2.2.2.1, h.2.2.2.2⟩

/-! ## C8: the cursor of every emitted Inputting state is within the
buffer -/

/-- The claimed invariant of an emitted state: an `Inputting` state's
cursor does not pass the codepoint length of its composing buffer (other
states are unconstrained). -/
def inputtingCursorOk : InputState → Prop
  | .inputting buf cursor _ _ => cursor ≤ buf.length
  | _ => True

/-- All states of a list satisfy the inputting-cursor invariant. -/
abbrev listOk (l : List InputState) : Prop := ∀ s ∈ l, inputtingCursorOk s

/-- All states emitted by a `handle` call satisfy the inputting-cursor
invariant. -/
abbrev emittedOk (r : HandleResult ρ γ υ) : Prop := listOk r.emitted

theorem listOk_nil : listOk [] := by
  intro s hs
  exact absurd hs (List.not_mem_nil s)

theorem listOk_cons {x : InputState} {l : List InputState}
    (hx : inputtingCursorOk x) (hl : listOk l) : listOk (x :: l) := by
  intro s hs
  rcases List.mem_cons.mp hs with rfl | hs
  · exact hx
  · exact hl s hs

/-- `buildInputtingState` puts its cursor at `|head| + |reading|`, within
the buffer `head ++ reading ++ tail`. -/
theorem buildInputtingState_cursorOk (env : Env ρ γ υ) (st : KHState ρ γ υ) :
    inputtingCursorOk (st.buildInputtingState env) := by
  unfold KHState.buildInputtingState inputtingCursorOk
  simp only [String.length_append]
  omega

/-- Setting the evicted text preserves the inputting-cursor invariant. -/
theorem withEvicted_cursorOk (e : String) (s : InputState)
    (h : inputtingCursorOk s) : inputtingCursorOk (s.withEvicted e) := by
  cases s <;> simpa [InputState.withEvicted, inputtingCursorOk] using h

theorem handleTabKey_emittedOk (env : Env ρ γ υ) (key : Key)
    (state : InputState) (st : KHState ρ γ υ) :
    emittedOk (st.handleTabKey env key state) := by
  unfold KHState.handleTabKey
  repeat' (first | split | dsimp only)
  all_goals
    first
    | exact listOk_nil
    | exact listOk_cons (buildInputtingState_cursorOk _ _) listOk_nil

theorem handleCursorKeys_emittedOk (env : Env ρ γ υ) (key : Key)
    (state : InputState) (st : KHState ρ γ υ) :
    emittedOk (st.handleCursorKeys env key state) := by
  unfold KHState.handleCursorKeys
  repeat' (first | split | dsimp only)
  all_goals
    first
    | exact listOk_nil
    | exact listOk_cons (buildInputtingState_cursorOk _ _) listOk_nil
    | exact listOk_cons True.intro listOk_nil

theorem handleDeleteKeys_emittedOk (env : Env ρ γ υ) (key : Key)
    (state : InputState) (st : KHState ρ γ υ) :
    emittedOk (st.handleDeleteKeys env key state) := by
  unfold KHState.handleDeleteKeys
  repeat' (first | split | dsimp only)
  all_goals
    first
    | exact listOk_nil
    | exact listOk_cons (buildInputtingState_cursorOk _ _) listOk_nil
    | exact listOk_cons True.intro listOk_nil

theorem handlePunctuation_emittedOk (env : Env ρ γ υ) (st : KHState ρ γ υ)
    (k : String) : emittedOk (st.handlePunctuation env k) := by
  unfold KHState.handlePunctuation
  repeat' (first | split | dsimp only)
  all_goals
    first
    | exact listOk_nil
    | exact listOk_cons (buildInputtingState_cursorOk _ _) listOk_nil
    | exact listOk_cons
        (withEvicted_cursorOk _ _ (buildInputtingState_cursorOk _ _)) listOk_nil
    | exact listOk_cons
        (withEvicted_cursorOk _ _ (buildInputtingState_cursorOk _ _))
        (listOk_cons True.intro listOk_nil)

theorem composeReading_emittedOk (env : Env ρ γ υ) (st : KHState ρ γ υ) :
    emittedOk (st.composeReading env) := by
  unfold KHState.composeReading
  repeat' (first | split | dsimp only)
  all_goals
    repeat' first
    | exact listOk_nil
    | refine listOk_cons ?_ ?_
    | exact buildInputtingState_cursorOk _ _
    | exact withEvicted_cursorOk _ _ (buildInputtingState_cursorOk _ _)
    | exact True.intro

theorem handleLatin_emittedOk (env : Env ρ γ υ) (key : Key)
    (state : InputState) (st : KHState ρ γ υ) :
    emittedOk (st.handleLatin env key state) := by
  unfold KHState.handleLatin
  repeat' (first | split | dsimp only)
  all_goals
    first
    | exact handlePunctuation_emittedOk _ _ _
    | (repeat' first
        | exact listOk_nil
        | refine listOk_cons ?_ ?_
        | exact buildInputtingState_cursorOk _ _
        | exact True.intro)

theorem handlePostReading_emittedOk (env : Env ρ γ υ) (key : Key)
    (state : InputState) (st : KHState ρ γ υ) (kc : Bool) :
    emittedOk (st.handlePostReading env key state kc) := by
  have okBuild : ∀ (env : Env ρ γ υ) (st : KHState ρ γ υ),
      listOk [st.buildInputtingState env] := fun env st =>
    listOk_cons (buildInputtingState_cursorOk env st) listOk_nil
  unfold KHState.handlePostReading
  by_cases h1 : (env.hasToneMarker st.reading ∧
      ¬ env.hasToneMarkerOnly st.reading) ∨
      (¬ env.readingIsEmpty st.reading ∧ key.name = KeyName.SPACE)
  · rw [if_pos h1]
    exact composeReading_emittedOk env st
  rw [if_neg h1]
  by_cases h2 : kc = true
  · rw [if_pos h2]
    exact okBuild env st
  rw [if_neg h2]
  by_cases h3 : key.name = KeyName.SPACE ∧ key.shiftPressed = true
  · rw [if_pos h3]
    by_cases h4 : st.putLowercaseLettersToComposingBuffer = true
    · rw [if_pos h4]
      exact listOk_cons
        (withEvicted_cursorOk _ _ (buildInputtingState_cursorOk _ _)) listOk_nil
    rw [if_neg h4]
    by_cases h5 : st.builder.length ≠ 0
    · rw [if_pos h5]
      exact listOk_cons True.intro (listOk_cons True.intro listOk_nil)
    · rw [if_neg h5]
      exact listOk_cons True.intro listOk_nil
  rw [if_neg h3]
  by_cases h6 : (key.name = KeyName.SPACE ∨ key.name = KeyName.DOWN) ∧
      state.isNotEmpty = true ∧ env.readingIsEmpty st.reading = true
  · rw [if_pos h6]
    exact listOk_cons True.intro listOk_nil
  rw [if_neg h6]
  by_cases h7 : key.name = KeyName.ESC
  · rw [if_pos h7]
    by_cases h8 : ¬ state.isNotEmpty = true
    · rw [if_pos h8]
      exact listOk_nil
    rw [if_neg h8]
    by_cases h9 : st.escKeyClearsEntireComposingBuffer = true
    · rw [if_pos h9]
      exact listOk_cons True.intro listOk_nil
    rw [if_neg h9]
    by_cases h10 : ¬ env.readingIsEmpty st.reading = true
    · rw [if_pos h10]
      by_cases h11 : st.builder.length = 0
      · rw [if_pos h11]
        exact listOk_cons True.intro listOk_nil
      · rw [if_neg h11]
        exact listOk_cons (buildInputtingState_cursorOk _ _) listOk_nil
    · rw [if_neg h10]
      exact okBuild env st
  rw [if_neg h7]
  by_cases h12 : key.name = KeyName.TAB
  · rw [if_pos h12]
    exact handleTabKey_emittedOk env key state st
  rw [if_neg h12]
  by_cases h13 : key.isCursorKeys = true
  · rw [if_pos h13]
    exact handleCursorKeys_emittedOk env key state st
  rw [if_neg h13]
  by_cases h14 : key.isDeleteKeys = true
  · rw [if_pos h14]
    exact handleDeleteKeys_emittedOk env key state st
  rw [if_neg h14]
  by_cases h15 : key.name = KeyName.RETURN
  · rw [if_pos h15]
    by_cases h16 : ¬ state.isNotEmpty = true
    · rw [if_pos h16]
      exact listOk_nil
    rw [if_neg h16]
    by_cases h17 : ¬ env.readingIsEmpty st.reading = true
    · rw [if_pos h17]
      exact okBuild env st
    rw [if_neg h17]
    by_cases h18 : state.isMarking = true
    · rw [if_pos h18]
      by_cases h19 : state.markingAcceptable = true
      · rw [if_pos h19]
        exact okBuild env st
      · rw [if_neg h19]
        exact listOk_cons True.intro listOk_nil
    · rw [if_neg h18]
      exact listOk_cons True.intro listOk_nil
  rw [if_neg h15]
  by_cases h20 : key.ascii = kPunctuationListKey ∧
      env.hasUnigramsForKey kPunctuationListUnigramKey = true
  · rw [if_pos h20]
    by_cases h21 : env.readingIsEmpty st.reading = true
    · rw [if_pos h21]
      exact listOk_cons
        (withEvicted_cursorOk _ _ (buildInputtingState_cursorOk _ _))
        (listOk_cons True.intro listOk_nil)
    · rw [if_neg h21]
      exact listOk_nil
  rw [if_neg h20]
  by_cases h22 : key.ascii ≠ ""
  · rw [if_pos h22]
    exact handleLatin_emittedOk env key state st
  rw [if_neg h22]
  by_cases h23 : state.isNotEmpty = true
  · rw [if_pos h23]
    exact okBuild env st
  · rw [if_neg h23]
    exact listOk_nil

/-- Every state emitted by `handle` satisfies the inputting-cursor
invariant. -/
theorem handle_emittedOk (env : Env ρ γ υ) (key : Key) (state : InputState)
    (st : KHState ρ γ υ) : emittedOk (st.handle env key state) := by
  unfold KHState.handle
  repeat' (first | split | dsimp only)
  all_goals
    first
    | exact handlePostReading_emittedOk _ _ _ _ _
    | exact listOk_nil
    | exact listOk_cons (buildInputtingState_cursorOk _ _) listOk_nil

/-- C8: for every `handle` call (hence every sequence of them) and every
`Inputting` state it emits, the cursor index is at least `0` and at most
the codepoint length of the composing buffer. -/
theorem handle_inputting_cursor_bounded (env : Env ρ γ υ) (key : Key)
    (state : InputState) (st : KHState ρ γ υ) (buf : String) (cursor : Nat)
    (tooltip evicted : String)
    (hmem : InputState.inputting buf cursor tooltip evicted ∈
      (st.handle env key state).emitted) :
    0 ≤ cursor ∧ cursor ≤ buf.length :=
  ⟨Nat.zero_le _, handle_emittedOk env key state st _ hmem⟩

/-- Witness for C8: an unhandled key on a non-empty state re-emits an
Inputting state whose cursor is within its buffer. -/
theorem handle_inputting_cursor_bounded_witness :
    (InputState.inputting "" 0 "" "") ∈
      (unitState.handle unitEnv ⟨"", KeyName.UNKNOWN, false, false⟩
        (.inputting "x" 0 "" "")).emitted ∧
    (0 ≤ 0 ∧ 0 ≤ ("" : String).length) :=
  ⟨by decide,
   handle_inputting_cursor_bounded unitEnv ⟨"", KeyName.UNKNOWN, false, false⟩
     (.inputting "x" 0 "" "") unitState "" 0 "" "" (by decide)⟩

/-! ## C3: when `handle` does not consume the key -/

theorem isInputting_isNotEmpty (state : InputState)
    (h : state.isInputting = true) : state.isNotEmpty = true := by
  cases state <;> simp_all [InputState.isInputting, InputState.isNotEmpty]

theorem isMarking_isNotEmpty (state : InputState)
    (h : state.isMarking = true) : state.isNotEmpty = true := by
  cases state <;> simp_all [InputState.isMarking, InputState.isNotEmpty]

theorem composeReading_consumed (env : Env ρ γ υ) (st : KHState ρ γ υ) :
    (st.composeReading env).consumed = true := by
  unfold KHState.composeReading
  repeat' (first | split | dsimp only)
  all_goals rfl

theorem handleTabKey_consumed (env : Env ρ γ υ) (key : Key)
    (state : InputState) (st : KHState ρ γ υ) :
    (st.handleTabKey env key state).consumed = true := by
  unfold KHState.handleTabKey
  repeat' (first | split | dsimp only)
  all_goals rfl

theorem handleCursorKeys_consumed (env : Env ρ γ υ) (key : Key)
    (state : InputState) (st : KHState ρ γ υ) :
    (st.handleCursorKeys env key state).consumed =
      (state.isInputting || state.isMarking) := by
  unfold KHState.handleCursorKeys
  repeat' (first | split | dsimp only)
  all_goals simp_all

theorem handleDeleteKeys_consumed (env : Env ρ γ υ) (key : Key)
    (state : InputState) (st : KHState ρ γ υ) :
    (st.handleDeleteKeys env key state).consumed = state.isNotEmpty := by
  unfold KHState.handleDeleteKeys
  repeat' (first | split | dsimp only)
  all_goals simp_all

theorem handlePunctuation_consumed (env : Env ρ γ υ) (st : KHState ρ γ υ)
    (k : String) :
    (st.handlePunctuation env k).consumed = env.hasUnigramsForKey k := by
  unfold KHState.handlePunctuation
  repeat' (first | split | dsimp only)
  all_goals simp_all

theorem handleLatin_consumed_false (env : Env ρ γ υ) (key : Key)
    (state : InputState) (st : KHState ρ γ υ)
    (h : (st.handleLatin env key state).consumed = false) :
    state.isNotEmpty = false := by
  unfold KHState.handleLatin at h
  repeat' (first | split at h | dsimp only at h)
  all_goals simp_all

theorem handlePostReading_consumed_false (env : Env ρ γ υ) (key : Key)
    (state : InputState) (st : KHState ρ γ υ) (kc : Bool)
    (h : (st.handlePostReading env key state kc).consumed = false) :
    state.isNotEmpty = false ∨
    (key.isCursorKeys = true ∧ state.isInputting = false ∧
      state.isMarking = false) := by
  unfold KHState.handlePostReading at h
  by_cases h1 : (env.hasToneMarker st.reading ∧
      ¬ env.hasToneMarkerOnly st.reading) ∨
      (¬ env.readingIsEmpty st.reading ∧ key.name = KeyName.SPACE)
  · rw [if_pos h1, composeReading_consumed env st] at h
    simp at h
  rw [if_neg h1] at h
  by_cases h2 : kc = true
  · rw [if_pos h2] at h
    simp at h
  rw [if_neg h2] at h
  by_cases h3 : key.name = KeyName.SPACE ∧ key.shiftPressed = true
  · rw [if_pos h3] at h
    by_cases h4 : st.putLowercaseLettersToComposingBuffer = true
    · rw [if_pos h4] at h
      simp at h
    rw [if_neg h4] at h
    by_cases h5 : st.builder.length ≠ 0
    · rw [if_pos h5] at h
      simp at h
    · rw [if_neg h5] at h
      simp at h
  rw [if_neg h3] at h
  by_cases h6 : (key.name = KeyName.SPACE ∨ key.name = KeyName.DOWN) ∧
      state.isNotEmpty = true ∧ env.readingIsEmpty st.reading = true
  · rw [if_pos h6] at h
    simp at h
  rw [if_neg h6] at h
  by_cases h7 : key.name = KeyName.ESC
  · rw [if_pos h7] at h
    by_cases h8 : ¬ state.isNotEmpty = true
    · exact Or.inl (by simpa using h8)
    rw [if_neg h8] at h
    by_cases h9 : st.escKeyClearsEntireComposingBuffer = true
    · rw [if_pos h9] at h
      simp at h
    rw [if_neg h9] at h
    by_cases h10 : ¬ env.readingIsEmpty st.reading = true
    · rw [if_pos h10] at h
      by_cases h11 : st.builder.length = 0
      · rw [if_pos h11] at h
        simp at h
      · rw [if_neg h11] at h
        simp at h
    · rw [if_neg h10] at h
      simp at h
  rw [if_neg h7] at h
  by_cases h12 : key.name = KeyName.TAB
  · rw [if_pos h12, handleTabKey_consumed env key state st] at h
    simp at h
  rw [if_neg h12] at h
  by_cases h13 : key.isCursorKeys = true
  · rw [if_pos h13, handleCursorKeys_consumed env key state st] at h
    simp only [Bool.or_eq_false_iff] at h
    exact Or.inr ⟨h13, h.1, h.2⟩
  rw [if_neg h13] at h
  by_cases h14 : key.isDeleteKeys = true
  · rw [if_pos h14, handleDeleteKeys_consumed env key state st] at h
    exact Or.inl h
  rw [if_neg h14] at h
  by_cases h15 : key.name = KeyName.RETURN
  · rw [if_pos h15] at h
    by_cases h16 : ¬ state.isNotEmpty = true
    · exact Or.inl (by simpa using h16)
    rw [if_neg h16] at h
    by_cases h17 : ¬ env.readingIsEmpty st.reading = true
    · rw [if_pos h17] at h
      simp at h
    rw [if_neg h17] at h
    by_cases h18 : state.isMarking = true
    · rw [if_pos h18] at h
      by_cases h19 : state.markingAcceptable = true
      · rw [if_pos h19] at h
        simp at h
      · rw [if_neg h19] at h
        simp at h
    · rw [if_neg h18] at h
      simp at h
  rw [if_neg h15] at h
  by_cases h20 : key.ascii = kPunctuationListKey ∧
      env.hasUnigramsForKey kPunctuationListUnigramKey = true
  · rw [if_pos h20] at h
    by_cases h21 : env.readingIsEmpty st.reading = true
    · rw [if_pos h21] at h
      simp at h
    · rw [if_neg h21] at h
      simp at h
  rw [if_neg h20] at h
  by_cases h22 : key.ascii ≠ ""
  · rw [if_pos h22] at h
    exact Or.inl (handleLatin_consumed_false env key state st h)
  rw [if_neg h22] at h
  by_cases h23 : state.isNotEmpty = true
  · rw [if_pos h23] at h
    simp at h
  · rw [if_neg h23] at h
    exact Or.inl (by simpa using h23)

theorem handlePostReading_consumed_true (env : Env ρ γ υ) (key : Key)
    (state : InputState) (st : KHState ρ γ υ) (kc : Bool)
    (hstate : state.isInputting = true ∨ state.isMarking = true) :
    (st.handlePostReading env key state kc).consumed = true := by
  rcases hb : (st.handlePostReading env key state kc).consumed with _ | _
  · exfalso
    rcases handlePostReading_consumed_false env key state st kc hb with
      hne | ⟨_, hi, hm⟩
    · rcases hstate with hi | hm
      · rw [isInputting_isNotEmpty state hi] at hne
        exact absurd hne (by simp)
      · rw [isMarking_isNotEmpty state hm] at hne
        exact absurd hne (by simp)
    · rcases hstate with hs | hs
      · rw [hs] at hi
        exact absurd hi (by simp)
      · rw [hs] at hm
        exact absurd hm (by simp)
  · rfl

/-- C3 (amended): `handle` returns `false` (key not consumed) only when
the key is a bare modifier (`"Shift"`, `"Meta"`, `"Alt"`), or the state is
not a `NotEmpty` state, or the key is a grid-cursor key while the
`NotEmpty` state is neither `Inputting` nor `Marking` (e.g.
`ChoosingCandidate`); conversely, a non-modifier key on an `Inputting` or
`Marking` state is always consumed. -/
theorem handle_consumed_characterization (env : Env ρ γ υ) (key : Key)
    (state : InputState) (st : KHState ρ γ υ) :
    ((st.handle env key state).consumed = false →
      (key.ascii = "Shift" ∨ key.ascii = "Meta" ∨ key.ascii = "Alt") ∨
      state.isNotEmpty = false ∨
      (key.isCursorKeys = true ∧ state.isInputting = false ∧
        state.isMarking = false)) ∧
    (¬ (key.ascii = "Shift" ∨ key.ascii = "Meta" ∨ key.ascii = "Alt") →
      (state.isInputting = true ∨ state.isMarking = true) →
      (st.handle env key state).consumed = true) := by
  constructor
  · intro h
    unfold KHState.handle at h
    by_cases hmod : key.ascii = "Shift" ∨ key.ascii = "Meta" ∨
      key.ascii = "Alt"
    · exact Or.inl hmod
    rw [if_neg hmod] at h
    by_cases hvk : env.isValidKey st.reading key.ascii = true
    · rw [if_pos hvk] at h
      by_cases htone : ¬ env.hasToneMarker
          (env.combineKey st.reading key.ascii) = true
      · rw [if_pos htone] at h
        simp at h
      · rw [if_neg htone] at h
        exact Or.inr (handlePostReading_consumed_false env key state _ _ h)
    · rw [if_neg hvk] at h
      exact Or.inr (handlePostReading_consumed_false env key state _ _ h)
  · intro hmod hstate
    unfold KHState.handle
    rw [if_neg hmod]
    by_cases hvk : env.isValidKey st.reading key.ascii = true
    · rw [if_pos hvk]
      by_cases htone : ¬ env.hasToneMarker
          (env.combineKey st.reading key.ascii) = true
      · rw [if_pos htone]
      · rw [if_neg htone]
        exact handlePostReading_consumed_true env key state _ _ hstate
    · rw [if_neg hvk]
      exact handlePostReading_consumed_true env key state _ _ hstate

/-- Counterexample to C3 as stated: a bare Shift key press on a non-empty
(Inputting) state is not consumed, even though the state is not Empty. -/
theorem handle_shift_not_consumed :
    (unitState.handle unitEnv ⟨"Shift", KeyName.ASCII, true, false⟩
      (.inputting "x" 0 "" "")).consumed = false ∧
    (InputState.inputting "x" 0 "" "").isNotEmpty = true := by
  constructor <;> rfl

/-- Witness for C3 (amended): the Shift press is covered by the modifier
disjunct, and a cursor key on an Inputting state is consumed. -/
theorem handle_consumed_characterization_witness :
    ((unitState.handle unitEnv ⟨"Shift", KeyName.ASCII, true, false⟩
        (.inputting "x" 0 "" "")).consumed = false →
      ((("Shift" : String) = "Shift" ∨ ("Shift" : String) = "Meta" ∨
        ("Shift" : String) = "Alt") ∨
       (InputState.inputting "x" 0 "" "").isNotEmpty = false ∨
       ((Key.mk "Shift" KeyName.ASCII true false).isCursorKeys = true ∧
        (InputState.inputting "x" 0 "" "").isInputting = false ∧
        (InputState.inputting "x" 0 "" "").isMarking = false))) ∧
    (unitState.handle unitEnv ⟨"", KeyName.LEFT, false, false⟩
      (.inputting "x" 0 "" "")).consumed = true :=
  ⟨(handle_consumed_characterization unitEnv
      ⟨"Shift", KeyName.ASCII, true, false⟩ (.inputting "x" 0 "" "")
      unitState).1,
   (handle_consumed_characterization unitEnv ⟨"", KeyName.LEFT, false, false⟩
      (.inputting "x" 0 "" "") unitState).2 (by decide) (by decide)⟩

/-! ## C10: the marking decomposition `buffer = head ++ marked ++ tail` -/

/-- One composed-string step preserves the coupling between two runs of
the loop at builder cursors `b1 ≤ b2` (in the generalised form
`b1 - rc1 ≤ b2 - rc2`): the composed strings stay equal, the codepoint
cursors stay ordered and bounded by the composed length, and the running
cursors stay bounded by their builder cursors. -/
theorem gcsStep_couple (env : Env ρ γ υ) (rs : List String) (b1 b2 : Nat)
    (acc1 acc2 : GcsAcc) (anchor : NodeAnchor)
    (hco : acc1.composed = acc2.composed)
    (hcc : acc1.composedCursor ≤ acc2.composedCursor)
    (hl1 : acc1.composedCursor ≤ acc1.composed.length)
    (hl2 : acc2.composedCursor ≤ acc2.composed.length)
    (hr1 : acc1.runningCursor ≤ b1) (hr2 : acc2.runningCursor ≤ b2)
    (hd : b1 - acc1.runningCursor ≤ b2 - acc2.runningCursor) :
    (gcsStep env rs b1 acc1 anchor).composed =
      (gcsStep env rs b2 acc2 anchor).composed ∧
    (gcsStep env rs b1 acc1 anchor).composedCursor ≤
      (gcsStep env rs b2 acc2 anchor).composedCursor ∧
    (gcsStep env rs b1 acc1 anchor).composedCursor ≤
      (gcsStep env rs b1 acc1 anchor).composed.length ∧
    (gcsStep env rs b2 acc2 anchor).composedCursor ≤
      (gcsStep env rs b2 acc2 anchor).composed.length ∧
    (gcsStep env rs b1 acc1 anchor).runningCursor ≤ b1 ∧
    (gcsStep env rs b2 acc2 anchor).runningCursor ≤ b2 ∧
    b1 - (gcsStep env rs b1 acc1 anchor).runningCursor ≤
      b2 - (gcsStep env rs b2 acc2 anchor).runningCursor := by
  have hlen : acc1.composed.length = acc2.composed.length := by rw [hco]
  cases hn : anchor.node with
  | none =>
    simp only [gcsStep, hn]
    exact ⟨hco, hcc, hl1, hl2, hr1, hr2, hd⟩
  | some node =>
    simp only [gcsStep, hn]
    repeat' split
    all_goals dsimp only
    all_goals
      refine ⟨by rw [hco], ?_, ?_, ?_, ?_, ?_, ?_⟩ <;>
        (try simp only [String.length_append]) <;> omega

/-- The composed-string loop preserves the coupling over any anchor
list. -/
theorem gcsFold_couple (env : Env ρ γ υ) (rs : List String) (b1 b2 : Nat)
    (anchors : List NodeAnchor) :
    ∀ (acc1 acc2 : GcsAcc),
    acc1.composed = acc2.composed →
    acc1.composedCursor ≤ acc2.composedCursor →
    acc1.composedCursor ≤ acc1.composed.length →
    acc2.composedCursor ≤ acc2.composed.length →
    acc1.runningCursor ≤ b1 → acc2.runningCursor ≤ b2 →
    b1 - acc1.runningCursor ≤ b2 - acc2.runningCursor →
    (anchors.foldl (gcsStep env rs b1) acc1).composed =
      (anchors.foldl (gcsStep env rs b2) acc2).composed ∧
    (anchors.foldl (gcsStep env rs b1) acc1).composedCursor ≤
      (anchors.foldl (gcsStep env rs b2) acc2).composedCursor ∧
    (anchors.foldl (gcsStep env rs b1) acc1).composedCursor ≤
      (anchors.foldl (gcsStep env rs b1) acc1).composed.length ∧
    (anchors.foldl (gcsStep env rs b2) acc2).composedCursor ≤
      (anchors.foldl (gcsStep env rs b2) acc2).composed.length := by
  induction anchors with
  | nil =>
    intro acc1 acc2 hco hcc hl1 hl2 _ _ _
    exact ⟨hco, hcc, hl1, hl2⟩
  | cons a rest ih =>
    intro acc1 acc2 hco hcc hl1 hl2 hr1 hr2 hd
    have h := gcsStep_couple env rs b1 b2 acc1 acc2 a hco hcc hl1 hl2 hr1 hr2 hd
    simp only [List.foldl_cons]
    exact ih _ _ h.1 h.2.1 h.2.2.1 h.2.2.2.1 h.2.2.2.2.1 h.2.2.2.2.2.1
      h.2.2.2.2.2.2

/-- The coupling at the two cursors used by `buildMarkingState`: for
`b1 ≤ b2`, the folds share their composed string and bound and order their
codepoint cursors. -/
theorem gcsFold_facts (env : Env ρ γ υ) (st : KHState ρ γ υ) (b1 b2 : Nat)
    (h : b1 ≤ b2) :
    (gcsFold env st b1).composed = (gcsFold env st b2).composed ∧
    (gcsFold env st b1).composedCursor ≤ (gcsFold env st b2).composedCursor ∧
    (gcsFold env st b1).composedCursor ≤ (gcsFold env st b1).composed.length ∧
    (gcsFold env st b2).composedCursor ≤ (gcsFold env st b2).composed.length :=
  gcsFold_couple env st.builder.readings b1 b2 st.walkedNodes ⟨0, "", 0, ""⟩
    ⟨0, "", 0, ""⟩ rfl (Nat.le_refl 0) (Nat.zero_le 0) (Nat.zero_le 0)
    (Nat.zero_le b1) (Nat.zero_le b2) (by omega)

/-- The three-way take/drop decomposition of a list at `m ≤ n`. -/
theorem take_drop_decomp (l : List α) (m n : Nat) (h : m ≤ n) :
    l.take m ++ ((l.take n).drop m ++ l.drop n) = l := by
  rw [show l.take m = (l.take n).take m by
    rw [List.take_take, Nat.min_eq_left h]]
  rw [← List.append_assoc, List.take_append_drop, List.take_append_drop]

/-- Re-joining a split string. -/
theorem strmk_take_drop (l : List Char) (n : Nat) :
    (⟨l.take n⟩ : String) ++ (⟨l.drop n⟩ : String) = ⟨l⟩ := by
  apply String.ext
  exact List.take_append_drop n l

/-- The decomposition of the marking: with `ccA ≤ ccB` and `ccA` within
the composed list `l`, the whole string splits as
`head ++ marked ++ tail` in `String` form. -/
theorem marking_string_decomp (l : List Char) (ccA ccB : Nat)
    (hab : ccA ≤ ccB) (ha : ccA ≤ l.length) :
    (⟨l⟩ : String) =
      (⟨l.take ccA⟩ : String) ++
        (⟨(l.take ccB).drop (String.length ⟨l.take ccA⟩)⟩ : String) ++
        (⟨l.drop ccB⟩ : String) := by
  have hlen : String.length (⟨l.take ccA⟩ : String) = ccA := by
    show (l.take ccA).length = ccA
    rw [List.length_take]
    omega
  rw [hlen]
  apply String.ext
  show l = (l.take ccA ++ (l.take ccB).drop ccA) ++ l.drop ccB
  rw [List.append_assoc, take_drop_decomp l ccA ccB hab]

/-- C10: every `Marking` state built by `buildMarkingState` satisfies
`composingBuffer = head ++ markedText ++ tail`, and its head is the
composed-string prefix at the smaller of the two grid cursors (the anchors
being swapped when the mark start lies after the cursor), hence never
longer than the prefix at the larger cursor. -/
theorem buildMarkingState_decomposition (env : Env ρ γ υ)
    (st : KHState ρ γ υ) (beginCursorIndex : Nat) :
    (st.buildMarkingState env beginCursorIndex).notEmptyBuf =
      (st.buildMarkingState env beginCursorIndex).markingHead ++
        (st.buildMarkingState env beginCursorIndex).markingMarkedText ++
        (st.buildMarkingState env beginCursorIndex).markingTail ∧
    (st.buildMarkingState env beginCursorIndex).markingHead =
      (st.getComposedString env (min beginCursorIndex st.builder.cursor)).head ∧
    (st.buildMarkingState env beginCursorIndex).markingHead.length ≤
      (st.getComposedString env (max beginCursorIndex st.builder.cursor)).head.length := by
  unfold KHState.buildMarkingState
  by_cases h : beginCursorIndex > st.builder.cursor
  · have hf := gcsFold_facts env st st.builder.cursor beginCursorIndex
      (le_of_lt h)
    simp only [h, if_true, InputState.notEmptyBuf, InputState.markingHead,
      InputState.markingMarkedText, InputState.markingTail,
      Nat.min_eq_right (le_of_lt h), Nat.max_eq_left (le_of_lt h),
      KHState.getComposedString]
    refine ⟨?_, ?_, ?_⟩
    · rw [show (gcsFold env st beginCursorIndex).composed =
        (gcsFold env st st.builder.cursor).composed from hf.1.symm]
      rw [strmk_take_drop (gcsFold env st st.builder.cursor).composed.data
        (gcsFold env st st.builder.cursor).composedCursor]
      exact marking_string_decomp
        (gcsFold env st st.builder.cursor).composed.data
        (gcsFold env st st.builder.cursor).composedCursor
        (gcsFold env st beginCursorIndex).composedCursor hf.2.1 hf.2.2.1
    · first
      | rfl
      | trivial
    · show ((gcsFold env st st.builder.cursor).composed.data.take
          (gcsFold env st st.builder.cursor).composedCursor).length ≤
        ((gcsFold env st beginCursorIndex).composed.data.take
          (gcsFold env st beginCursorIndex).composedCursor).length
      rw [List.length_take, List.length_take]
      have hlen : (gcsFold env st st.builder.cursor).composed.data.length =
          (gcsFold env st beginCursorIndex).composed.data.length := by
        rw [hf.1]
      have h1 := hf.2.1
      omega
  · have hle : beginCursorIndex ≤ st.builder.cursor := Nat.le_of_not_lt h
    have hf := gcsFold_facts env st beginCursorIndex st.builder.cursor hle
    simp only [h, if_false, InputState.notEmptyBuf, InputState.markingHead,
      InputState.markingMarkedText, InputState.markingTail,
      Nat.min_eq_left hle, Nat.max_eq_right hle, KHState.getComposedString]
    refine ⟨?_, ?_, ?_⟩
    · rw [show (gcsFold env st beginCursorIndex).composed =
        (gcsFold env st st.builder.cursor).composed from hf.1]
      rw [strmk_take_drop (gcsFold env st st.builder.cursor).composed.data
        (gcsFold env st st.builder.cursor).composedCursor]
      exact marking_string_decomp
        (gcsFold env st st.builder.cursor).composed.data
        (gcsFold env st beginCursorIndex).composedCursor
        (gcsFold env st st.builder.cursor).composedCursor hf.2.1
        (hf.1 ▸ hf.2.2.1)
    · first
      | rfl
      | trivial
    · show ((gcsFold env st beginCursorIndex).composed.data.take
          (gcsFold env st beginCursorIndex).composedCursor).length ≤
        ((gcsFold env st st.builder.cursor).composed.data.take
          (gcsFold env st st.builder.cursor).composedCursor).length
      rw [List.length_take, List.length_take]
      have hlen : (gcsFold env st beginCursorIndex).composed.data.length =
          (gcsFold env st st.builder.cursor).composed.data.length := by
        rw [hf.1]
      have h1 := hf.2.1
      omega

end McBopomofo
